import Mathlib

set_option linter.unusedVariables false

/-!
Shallow embedding of `src/server/search/search_family.cc` (the search command
family of a sharded in-memory store): argument-grammar parsing for
SEARCH/AGGREGATE/CREATE, the cross-shard result merger, the index-missing
aggregation of the shard fanout, and the synonym propagation protocol.

Machine integers (`size_t`) are modelled as `Nat`; no arithmetic in the
embedded code paths can overflow 64 bits for inputs of interest, and none of
the claims concern wrap-around.  Scores (`knn_score`, `sort_score`) are C++
floats used only through `<` comparisons; they are modelled as `Int`, which
carries the same linear-order structure the comparators rely on.
-/

namespace DflySearch

inductive SortOrder where
  | ASC
  | DESC
deriving DecidableEq, Repr

/-- `FieldReference(field, alias)` from the source: physical identifier plus
optional display alias (empty string when absent). -/
structure FieldReference where
  ident : String
  fAlias : String := ""
deriving DecidableEq, Repr

structure SortOption where
  field : FieldReference
  order : SortOrder
deriving DecidableEq, Repr

structure KnnScoreSortOption where
  score_field_alias : String := ""
  limit : Nat := 0
deriving DecidableEq, Repr

/-- Modelled from the spec: `SortOption::IsSame` is declared in
`search_family.h`, which is not part of the given sources.  Per the spec the
SORTBY step is skipped when "the SORTBY target" coincides with "the KNN sort
alias", so `IsSame` compares the SORTBY field with the KNN score alias. -/
def SortOption.IsSame (so : SortOption) (k : KnnScoreSortOption) : Bool :=
  so.field.ident == k.score_field_alias

/-- `SearchParams` of the source.  Modelled from the spec: the defaults
(offset 0, total 10) are set in the header, which is not part of the given
sources; the spec fixes them as "defaults 0 and 10 respectively". -/
structure SearchParams where
  limit_offset : Nat := 0
  limit_total : Nat := 10
  load_fields : Option (List FieldReference) := none
  return_fields : Option (List FieldReference) := none
  query_params : List (String × String) := []
  sort_option : Option SortOption := none
deriving DecidableEq, Repr

/-!
### The argument tokenizer (`CmdArgParser`)

Modelled from the spec: `CmdArgParser` lives in the facade layer, outside the
given sources.  Per spec §4.1 it exposes a stream of positional tokens with
check-and-consume of a literal tag (tag matching is case-insensitive, as for
the whole external command surface), peek, consume-next as typed value, and
consume of a pair; on mismatch it records a structured error but does not
throw.  The state is the remaining token list plus a sticky error flag.
-/

structure PState where
  toks : List String
  perr : Bool := false
deriving DecidableEq, Repr

/-- ASCII upper-casing of one character (the command surface is ASCII). -/
def charUp (c : Char) : Char :=
  if 'a' ≤ c ∧ c ≤ 'z' then Char.ofNat (c.toNat - 32) else c

/-- Case-insensitive tag comparison (`tag` is given in upper case). -/
def tagEq (t tag : String) : Bool :=
  t.data.map charUp == tag.data

/-- `absl::SimpleAtoi` for an unsigned target: all-digit tokens parse, the
rest are rejected. -/
def tokToNat (s : String) : Option Nat :=
  if s.data ≠ [] ∧ s.data.all (fun c => c.isDigit) then
    some (s.data.foldl (fun n c => n * 10 + (c.toNat - '0'.toNat)) 0)
  else none

/-- `absl::StartsWith(field, "@")`. -/
def startsWithAt (s : String) : Bool :=
  match s.data with
  | '@' :: _ => true
  | _ => false

def pHasNext (s : PState) : Bool :=
  !s.toks.isEmpty

def pPeek (s : PState) : String :=
  s.toks.headD ""

/-- `parser->Next()`: consume the next token; record an error when the stream
is exhausted. -/
def pNext : PState → String × PState
  | ⟨[], _⟩ => ("", ⟨[], true⟩)
  | ⟨t :: ts, e⟩ => (t, ⟨ts, e⟩)

/-- `parser->NextOrDefault()`: consume the next token, or yield the default
value without recording an error. -/
def pNextOrDefault : PState → String × PState
  | ⟨[], e⟩ => ("", ⟨[], e⟩)
  | ⟨t :: ts, e⟩ => (t, ⟨ts, e⟩)

/-- `parser->Next<size_t>()`: consume the next token as an unsigned number;
record an error (and yield 0) when it is missing or not numeric. -/
def pNextNat (s : PState) : Nat × PState :=
  let (t, s1) := pNext s
  match tokToNat t with
  | some n => (n, s1)
  | none => (0, { s1 with perr := true })

def pSkip (n : Nat) (s : PState) : PState :=
  { s with toks := s.toks.drop n }

/-- `parser->Check(tag)`: consume the next token iff it matches `tag`. -/
def pCheck (tag : String) (s : PState) : Bool × PState :=
  match s.toks with
  | t :: ts => if tagEq t tag then (true, ⟨ts, s.perr⟩) else (false, s)
  | [] => (false, s)

/-- `parser->Check(tag, &out)` for a string out-parameter: when the next token
matches `tag`, consume it together with the following token (the value). -/
def pCheckStr (tag : String) (s : PState) : Option String × PState :=
  match s.toks with
  | t :: ts =>
    if tagEq t tag then
      let (v, s2) := pNext ⟨ts, s.perr⟩
      (some v, s2)
    else (none, s)
  | [] => (none, s)

/-- `parser->Check(tag, &out)` for a `size_t` out-parameter. -/
def pCheckNat (tag : String) (s : PState) : Option Nat × PState :=
  match s.toks with
  | t :: ts =>
    if tagEq t tag then
      let (v, s2) := pNextNat ⟨ts, s.perr⟩
      (some v, s2)
    else (none, s)
  | [] => (none, s)

/-- `parser->ExpectTag(tag)`: consume one token and record an error unless it
matches `tag`. -/
def pExpectTag (tag : String) (s : PState) : PState :=
  let (t, s1) := pNext s
  if tagEq t tag then s1 else { s1 with perr := true }

/-!
### SEARCH argument parsing (`ParseSearchParams` and helpers)
-/

/-- `ParseField`: consume a field token, stripping one leading `@` if
present. -/
def ParseField (s : PState) : String × PState :=
  let (f, s1) := pNext s
  (if startsWithAt f then f.drop 1 else f, s1)

/-- `ParseFieldWithAtSign`: consume a field token; strip the leading `@`, or —
when the `search_reject_legacy_field` flag is set — report `none` for a field
that does not start with `@`.  The flag value is passed explicitly. -/
def ParseFieldWithAtSign (rejectLegacy : Bool) (s : PState) :
    Option String × PState :=
  let (f, s1) := pNext s
  if startsWithAt f then (some (f.drop 1), s1)
  else if rejectLegacy then (none, s1)
  else (some f, s1)

/-- Loop body of `ParseLoadOrReturnFields`:
`while (parser->HasNext() && num_fields--)`, consuming
`field [AS alias]` each round.  Structural recursion on the remaining count. -/
def loadFieldsLoop (is_load : Bool) :
    Nat → PState → List FieldReference → List FieldReference × PState
  | 0, s, acc => (acc, s)
  | n + 1, s, acc =>
    if pHasNext s then
      let (field, s1) := if is_load then ParseField s else pNext s
      let (al, s2) := pCheckStr "AS" s1
      loadFieldsLoop is_load n s2 (acc ++ [⟨field, al.getD ""⟩])
    else (acc, s)

def ParseLoadOrReturnFields (is_load : Bool) (s : PState) :
    List FieldReference × PState :=
  let (num_fields, s1) := pNextNat s
  loadFieldsLoop is_load num_fields s1 []

/-- `QueryParams` insertion: the source stores parameters in a string map with
insert-or-assign semantics (`params[k] = v`); modelled as an association list
without duplicate keys, so that its length is the map's `Size()`. -/
def qpInsert (m : List (String × String)) (k v : String) :
    List (String × String) :=
  if m.any (fun p => p.1 == k) then
    m.map (fun p => if p.1 == k then (k, v) else p)
  else m ++ [(k, v)]

/-- Loop of `ParseQueryParams`:
`while (parser->HasNext() && params.Size() * 2 < num_args)`, consuming a
key/value pair each round.  The fuel argument only bounds the recursion; the
wrapper supplies enough for the loop to run to its C++ exit condition. -/
def qpGo : Nat → Nat → List (String × String) → PState →
    List (String × String) × PState
  | 0, _, m, s => (m, s)
  | fuel + 1, num_args, m, s =>
    if pHasNext s && decide (m.length * 2 < num_args) then
      let (k, s1) := pNext s
      let (v, s2) := pNext s1
      qpGo fuel num_args (qpInsert m k v) s2
    else (m, s)

def ParseQueryParams (s : PState) : List (String × String) × PState :=
  let (num_args, s1) := pNextNat s
  qpGo (s1.toks.length + 1) num_args [] s1

/-- Main loop of `ParseSearchParams`: one branch per recognized clause, with
unknown tokens skipped by one.  Each iteration consumes at least one token, so
the wrapper's fuel (`toks.length + 1`) always reaches the C++ exit
condition. -/
def parseSearchLoop :
    Nat → PState → SearchParams → Except String (SearchParams × PState)
  | 0, s, params => .ok (params, s)
  | fuel + 1, s, params =>
    if pHasNext s then
      let (isLimit, sA) := pCheck "LIMIT" s
      if isLimit then
        let (off, sB) := pNextNat sA
        let (tot, sC) := pNextNat sB
        parseSearchLoop fuel sC
          { params with limit_offset := off, limit_total := tot }
      else
        let (isLoad, sD) := pCheck "LOAD" sA
        if isLoad then
          if params.return_fields.isSome then
            .error "LOAD cannot be applied after RETURN"
          else
            let (fs, sE) := ParseLoadOrReturnFields true sD
            parseSearchLoop fuel sE { params with load_fields := some fs }
        else
          let (isRet, sF) := pCheck "RETURN" sD
          if isRet then
            if params.load_fields.isSome then
              .error "RETURN cannot be applied after LOAD"
            else if params.return_fields.isSome then
              -- after NOCONTENT it's silently ignored
              parseSearchLoop fuel sF params
            else
              let (fs, sG) := ParseLoadOrReturnFields false sF
              parseSearchLoop fuel sG { params with return_fields := some fs }
          else
            let (isNoc, sH) := pCheck "NOCONTENT" sF
            if isNoc then
              parseSearchLoop fuel sH { params with return_fields := some [] }
            else
              let (isPar, sI) := pCheck "PARAMS" sH
              if isPar then
                let (qp, sJ) := ParseQueryParams sI
                parseSearchLoop fuel sJ { params with query_params := qp }
              else
                let (isSort, sK) := pCheck "SORTBY" sI
                if isSort then
                  let (f, sL) := ParseField sK
                  let (isDesc, sM) := pCheck "DESC" sL
                  parseSearchLoop fuel sM
                    { params with
                      sort_option :=
                        some ⟨⟨f, ""⟩, if isDesc then .DESC else .ASC⟩ }
                else
                  -- Unsupported parameters are ignored for now
                  parseSearchLoop fuel (pSkip 1 sK) params
    else .ok (params, s)

/-- `ParseSearchParams`, starting from a fresh parser over `toks`.  A recorded
tokenizer error surfaces (as in `SendErrorIfOccurred`) unless an explicit
syntactic error was already produced. -/
def ParseSearchParams (toks : List String) : Except String SearchParams :=
  match parseSearchLoop (toks.length + 1) ⟨toks, false⟩ {} with
  | .error e => .error e
  | .ok (p, s) => if s.perr then .error "tokenizer error" else .ok p

/-!
### AGGREGATE argument parsing (`ParseAggregatorParams` and helpers)
-/

inductive ReducerFunc where
  | COUNT
  | COUNT_DISTINCT
  | SUM
  | AVG
  | MAX
  | MIN
deriving DecidableEq, Repr

structure Reducer where
  source_field : String
  result_field : String
  func : ReducerFunc
deriving DecidableEq, Repr

structure SortParams where
  fields : List (String × SortOrder) := []
  maxResults : Option Nat := none
deriving DecidableEq, Repr

inductive AggStep where
  | group (fields : List String) (reducers : List Reducer)
  | sortStep (sp : SortParams)
  | limitStep (offset num : Nat)
deriving DecidableEq, Repr

structure AggregateParams where
  index : String := ""
  query : String := ""
  load_fields : Option (List FieldReference) := none
  steps : List AggStep := []
  params : List (String × String) := []
deriving DecidableEq, Repr

/-- Loop of `ParseAggregatorSortParams`:
`while (parser->HasNext() && strings_num > 0)`, consuming a field (rejecting
a missing `@` under the legacy flag), decrementing the budget, and — while
budget remains — an optional ASC/DESC direction (decrementing again).  The
fuel only bounds the recursion; each round consumes at least one token, so
the wrapper's fuel always reaches the C++ exit condition.  Yields the parsed
fields, the unconsumed budget and the parser state. -/
def aggSortLoop (rejectLegacy : Bool) :
    Nat → Nat → PState → List (String × SortOrder) →
    Except String (List (String × SortOrder) × Nat × PState)
  | 0, strings_num, s, acc => .ok (acc, strings_num, s)
  | fuel + 1, strings_num, s, acc =>
    if pHasNext s ∧ strings_num > 0 then
      let t := pPeek s
      let (pf, s1) := ParseFieldWithAtSign rejectLegacy s
      match pf with
      | none =>
        .error ("SORTBY field name '" ++ t ++ "' must start with '@'")
      | some field =>
        let n1 := strings_num - 1
        if n1 > 0 then
          let (isAsc, s2) := pCheck "ASC" s1
          if isAsc then
            aggSortLoop rejectLegacy fuel (n1 - 1) s2
              (acc ++ [(field, SortOrder.ASC)])
          else
            let (isDesc, s3) := pCheck "DESC" s2
            if isDesc then
              aggSortLoop rejectLegacy fuel (n1 - 1) s3
                (acc ++ [(field, SortOrder.DESC)])
            else
              aggSortLoop rejectLegacy fuel n1 s3
                (acc ++ [(field, SortOrder.ASC)])
        else aggSortLoop rejectLegacy fuel n1 s1 (acc ++ [(field, SortOrder.ASC)])
    else .ok (acc, strings_num, s)

/-- `ParseAggregatorSortParams`: `SORTBY nargs field [ASC|DESC] ... [MAX n]`,
with a hard error when the declared string count is not fully consumed. -/
def ParseAggregatorSortParams (rejectLegacy : Bool) (s : PState) :
    Except String (SortParams × PState) :=
  let (strings_num, s1) := pNextNat s
  match aggSortLoop rejectLegacy (s1.toks.length + 1) strings_num s1 [] with
  | .error e => .error e
  | .ok (fields, remaining, s2) =>
    if remaining ≠ 0 then
      .error "bad arguments for SORTBY: specified invalid number of strings"
    else
      let (hasMax, s3) := pCheck "MAX" s2
      if hasMax then
        let (mx, s4) := pNextNat s3
        .ok ({ fields := fields, maxResults := some mx }, s4)
      else .ok ({ fields := fields, maxResults := none }, s3)

/-- GROUPBY field loop: `while (parser->HasNext() && num_fields > 0)`,
rejecting (under the legacy flag) fields without a leading `@`. -/
def groupFieldsLoop (rejectLegacy : Bool) :
    Nat → PState → List String → Except String (List String × PState)
  | 0, s, acc => .ok (acc, s)
  | n + 1, s, acc =>
    if pHasNext s then
      let (pf, s1) := ParseFieldWithAtSign rejectLegacy s
      match pf with
      | none => .error "bad arguments: Field name should start with '@'"
      | some field => groupFieldsLoop rejectLegacy n s1 (acc ++ [field])
    else .ok (acc, s)

/-- REDUCE loop: `while (parser->Check("REDUCE"))`, consuming
`REDUCE func nargs [source] AS result` each round. -/
def reduceLoop :
    Nat → PState → List Reducer → Except String (List Reducer × PState)
  | 0, s, acc => .ok (acc, s)
  | fuel + 1, s, acc =>
    let (isRed, s1) := pCheck "REDUCE" s
    if isRed then
      let t := pPeek s1
      let matched :=
        if tagEq t "COUNT" then some ReducerFunc.COUNT
        else if tagEq t "COUNT_DISTINCT" then some ReducerFunc.COUNT_DISTINCT
        else if tagEq t "SUM" then some ReducerFunc.SUM
        else if tagEq t "AVG" then some ReducerFunc.AVG
        else if tagEq t "MAX" then some ReducerFunc.MAX
        else if tagEq t "MIN" then some ReducerFunc.MIN
        else none
      match matched with
      | none =>
        let (tok, _) := pNext s1
        .error ("reducer function " ++ tok ++ " not found")
      | some fn =>
        let s2 := pSkip 1 s1
        let (nargs, s3) := pNextNat s2
        let (source_field, s4) :=
          if nargs > 0 then ParseField s3 else ("", s3)
        let s5 := pExpectTag "AS" s4
        let (result_field, s6) := pNext s5
        reduceLoop fuel s6 (acc ++ [⟨source_field, result_field, fn⟩])
    else .ok (acc, s)

/-- Prologue of `ParseAggregatorParams`: `LOAD` clauses may only appear
directly after the query and are accumulated. -/
def aggLoadLoop :
    Nat → PState → Option (List FieldReference) →
    Option (List FieldReference) × PState
  | 0, s, acc => (acc, s)
  | fuel + 1, s, acc =>
    if pHasNext s then
      let (isLoad, s1) := pCheck "LOAD" s
      if isLoad then
        let (fs, s2) := ParseLoadOrReturnFields true s1
        match acc with
        | none => aggLoadLoop fuel s2 (some fs)
        | some old => aggLoadLoop fuel s2 (some (old ++ fs))
      else (acc, s)
    else (acc, s)

/-- Main loop of `ParseAggregatorParams`: GROUPBY / SORTBY / LIMIT / PARAMS
clauses; a late LOAD and any unknown clause are hard errors. -/
def parseAggLoop (rejectLegacy : Bool) :
    Nat → PState → AggregateParams → Except String (AggregateParams × PState)
  | 0, s, p => .ok (p, s)
  | fuel + 1, s, p =>
    if pHasNext s then
      let (isGroup, sA) := pCheck "GROUPBY" s
      if isGroup then
        let (num_fields, sB) := pNextNat sA
        match groupFieldsLoop rejectLegacy num_fields sB [] with
        | .error e => .error e
        | .ok (fields, sC) =>
          match reduceLoop (sC.toks.length + 1) sC [] with
          | .error e => .error e
          | .ok (reducers, sD) =>
            parseAggLoop rejectLegacy fuel sD
              { p with steps := p.steps ++ [AggStep.group fields reducers] }
      else
        let (isSort, sE) := pCheck "SORTBY" sA
        if isSort then
          match ParseAggregatorSortParams rejectLegacy sE with
          | .error e => .error e
          | .ok (sp, sF) =>
            parseAggLoop rejectLegacy fuel sF
              { p with steps := p.steps ++ [AggStep.sortStep sp] }
        else
          let (isLimit, sG) := pCheck "LIMIT" sE
          if isLimit then
            let (off, sH) := pNextNat sG
            let (num, sI) := pNextNat sH
            parseAggLoop rejectLegacy fuel sI
              { p with steps := p.steps ++ [AggStep.limitStep off num] }
          else
            let (isPar, sJ) := pCheck "PARAMS" sG
            if isPar then
              let (qp, sK) := ParseQueryParams sJ
              parseAggLoop rejectLegacy fuel sK { p with params := qp }
            else
              let (isLoad, sL) := pCheck "LOAD" sJ
              if isLoad then
                .error "LOAD cannot be applied after projectors or reducers"
              else
                .error ("Unknown clause: " ++ pPeek sL)
    else .ok (p, s)

/-- `ParseAggregatorParams`, starting from a fresh parser over `toks`. -/
def ParseAggregatorParams (rejectLegacy : Bool) (toks : List String) :
    Except String AggregateParams :=
  let s0 : PState := ⟨toks, false⟩
  let (index, s1) := pNext s0
  let (query, s2) := pNext s1
  let (load_fields, s3) := aggLoadLoop (s2.toks.length + 1) s2 none
  let p0 : AggregateParams :=
    { index := index, query := query, load_fields := load_fields }
  match parseAggLoop rejectLegacy (s3.toks.length + 1) s3 p0 with
  | .error e => .error e
  | .ok (p, s) => if s.perr then .error "tokenizer error" else .ok p

/-!
### CREATE argument parsing (`ParseCreateParams` and helpers)

The JSON-path validity test (`IsValidJsonPath`, backed by the external JSON
path engine) is not part of the given sources; it is passed in as a predicate
`jsonValid`.
-/

inductive DocType where
  | HASH
  | JSON
deriving DecidableEq, Repr

inductive FieldType where
  | TAG
  | TEXT
  | NUMERIC
  | VECTOR
deriving DecidableEq, Repr

inductive VectorSimilarity where
  | L2
  | IP
  | COSINE
deriving DecidableEq, Repr

/-- `SchemaField::TagParams`; per the spec the separator defaults to a
comma. -/
structure TagParams where
  separator : Char := ','
  case_sensitive : Bool := false
  with_suffixtrie : Bool := false
deriving DecidableEq, Repr

structure TextParams where
  with_suffixtrie : Bool := false
deriving DecidableEq, Repr

/-- `SchemaField::NumericParams`.  Modelled from the spec: the default block
size is set in a header outside the given sources; no claim depends on it. -/
structure NumericParams where
  block_size : Nat := 0
deriving DecidableEq, Repr

/-- `SchemaField::VectorParams`, value-initialized as in
`VectorParams params{}`.  Modelled from the spec: defaults supplied by the
header are not claim-relevant and are taken as zero-initialization. -/
structure VectorParams where
  use_hnsw : Bool := false
  dim : Nat := 0
  sim : VectorSimilarity := .L2
  capacity : Nat := 0
  hnsw_m : Nat := 0
  hnsw_ef_construction : Nat := 0
deriving DecidableEq, Repr

inductive ParamsVariant where
  | tagP (p : TagParams)
  | textP (p : TextParams)
  | numericP (p : NumericParams)
  | vectorP (p : VectorParams)
deriving DecidableEq, Repr

/-- `SchemaField::NOINDEX` / `SORTABLE` bit flags. -/
def noindexFlag : Nat := 1

def sortableFlag : Nat := 2

structure SchemaFieldInfo where
  ftype : FieldType
  flags : Nat
  short_name : String
  params : ParamsVariant
deriving DecidableEq, Repr

/-- `search::Schema`: identifier → field info, plus alias → identifier.  The
source uses hash maps with insert-or-assign semantics; modelled as
association lists without duplicate keys. -/
structure SchemaModel where
  fields : List (String × SchemaFieldInfo) := []
  field_names : List (String × String) := []
deriving DecidableEq, Repr

def assocInsert {α : Type} (m : List (String × α)) (k : String) (v : α) :
    List (String × α) :=
  if m.any (fun p => p.1 == k) then
    m.map (fun p => if p.1 == k then (k, v) else p)
  else m ++ [(k, v)]

def assocContains {α : Type} (m : List (String × α)) (k : String) : Bool :=
  m.any (fun p => p.1 == k)

structure DocIndexOptions where
  stopwords : List String := []
deriving DecidableEq, Repr

/-- `DocIndex`.  The source field `prefix` is a Lean keyword and is named
`keyPref` here. -/
structure DocIndex where
  type : DocType := .HASH
  keyPref : String := ""
  schema : SchemaModel := {}
  options : DocIndexOptions := {}
deriving DecidableEq, Repr

/-- Loop of `ParseVectorParams`: `for (i; i * 2 < num_args; i++)`, i.e.
`⌈num_args / 2⌉` rounds regardless of token availability.  Structural
recursion on the remaining round count. -/
def vectorLoop : Nat → VectorParams → PState → VectorParams × PState
  | 0, p, s => (p, s)
  | rounds + 1, p, s =>
    let (dim?, s1) := pCheckNat "DIM" s
    match dim? with
    | some d => vectorLoop rounds { p with dim := d } s1
    | none =>
      let (isMetric, s2) := pCheck "DISTANCE_METRIC" s1
      if isMetric then
        let (t, s3) := pNext s2
        if tagEq t "L2" then vectorLoop rounds { p with sim := .L2 } s3
        else if tagEq t "IP" then vectorLoop rounds { p with sim := .IP } s3
        else if tagEq t "COSINE" then
          vectorLoop rounds { p with sim := .COSINE } s3
        else vectorLoop rounds p { s3 with perr := true }
      else
        let (cap?, s4) := pCheckNat "INITIAL_CAP" s2
        match cap? with
        | some c => vectorLoop rounds { p with capacity := c } s4
        | none =>
          let (m?, s5) := pCheckNat "M" s4
          match m? with
          | some m => vectorLoop rounds { p with hnsw_m := m } s5
          | none =>
            let (ef?, s6) := pCheckNat "EF_CONSTRUCTION" s5
            match ef? with
            | some ef =>
              vectorLoop rounds { p with hnsw_ef_construction := ef } s6
            | none =>
              let (isRt, s7) := pCheck "EF_RUNTIME" s6
              if isRt then
                let (_, s8) := pNextNat s7
                vectorLoop rounds p s8
              else
                let (isEps, s9) := pCheck "EPSILON" s7
                if isEps then
                  -- Next<double>; the numeric value is discarded, and double
                  -- validation happens in the external tokenizer.
                  let (_, s10) := pNext s9
                  vectorLoop rounds p s10
                else vectorLoop rounds p (pSkip 2 s9)

/-- `ParseVectorParams`: `{HNSW|FLAT} num_args key value ...`. -/
def ParseVectorParams (s : PState) : VectorParams × PState :=
  let (t, s1) := pNext s
  let (use_hnsw, s2) :=
    if tagEq t "HNSW" then (true, s1)
    else if tagEq t "FLAT" then (false, s1)
    else (false, { s1 with perr := true })
  let (num_args, s3) := pNextNat s2
  vectorLoop ((num_args + 1) / 2) { use_hnsw := use_hnsw } s3

/-- Loop of `ParseTagParams`: SEPARATOR / CASESENSITIVE / WITHSUFFIXTRIE
options, breaking at the first unrecognized token. -/
def tagParamsLoop :
    Nat → TagParams → PState → Except String (TagParams × PState)
  | 0, p, s => .ok (p, s)
  | fuel + 1, p, s =>
    if pHasNext s then
      let (isSep, s1) := pCheck "SEPARATOR" s
      if isSep then
        let (sep, s2) := pNextOrDefault s1
        if sep.length ≠ 1 then
          .error ("Tag separator must be a single character. Got `" ++
            sep ++ "`")
        else tagParamsLoop fuel { p with separator := sep.front } s2
      else
        let (isCase, s3) := pCheck "CASESENSITIVE" s1
        if isCase then tagParamsLoop fuel { p with case_sensitive := true } s3
        else
          let (isSuf, s4) := pCheck "WITHSUFFIXTRIE" s3
          if isSuf then
            tagParamsLoop fuel { p with with_suffixtrie := true } s4
          else .ok (p, s)
    else .ok (p, s)

def ParseTagParams (s : PState) : Except String (TagParams × PState) :=
  tagParamsLoop (s.toks.length + 1) {} s

def ParseTextParams (s : PState) : TextParams × PState :=
  let (isSuf, s1) := pCheck "WITHSUFFIXTRIE" s
  ({ with_suffixtrie := isSuf }, s1)

def ParseNumericParams (s : PState) : NumericParams × PState :=
  let (bs?, s1) := pCheckNat "BLOCKSIZE" s
  match bs? with
  | some bs => ({ block_size := bs }, s1)
  | none => ({}, s1)

/-- `ParseTag` / `ParseText` / `ParseNumeric` / `ParseVector`, dispatched by
field type.  `ParseVector` surfaces a recorded tokenizer error as
"Parse error of vector parameters" and rejects `DIM 0`. -/
def parseTypedParams (ft : FieldType) (s : PState) :
    Except String (ParamsVariant × PState) :=
  match ft with
  | .TAG =>
    match ParseTagParams s with
    | .error e => .error e
    | .ok (p, s1) => .ok (.tagP p, s1)
  | .TEXT =>
    let (p, s1) := ParseTextParams s
    .ok (.textP p, s1)
  | .NUMERIC =>
    let (p, s1) := ParseNumericParams s
    .ok (.numericP p, s1)
  | .VECTOR =>
    let (p, s1) := ParseVectorParams s
    if s1.perr then .error "Parse error of vector parameters"
    else if p.dim = 0 then .error "Knn vector dimension cannot be zero"
    else .ok (.vectorP p, s1)

def kIgnoredOptions : List String :=
  ["UNF", "NOSTEM", "INDEXMISSING", "INDEXEMPTY"]

def kIgnoredOptionsWithArg : List String :=
  ["WEIGHT", "PHONETIC"]

/-- Flags loop of `ParseSchema`: NOINDEX / SORTABLE, with the legacy options
of `kIgnoredOptions` (skip one token) and `kIgnoredOptionsWithArg` (skip two)
ignored; the ignored-option comparison is exact, as in the source. -/
def schemaFlagsLoop : Nat → Nat → PState → Nat × PState
  | 0, flags, s => (flags, s)
  | fuel + 1, flags, s =>
    if pHasNext s then
      let (isNoidx, s1) := pCheck "NOINDEX" s
      if isNoidx then schemaFlagsLoop fuel (flags ||| noindexFlag) s1
      else
        let (isSort, s2) := pCheck "SORTABLE" s1
        if isSort then schemaFlagsLoop fuel (flags ||| sortableFlag) s2
        else
          let option := pPeek s2
          if kIgnoredOptions.contains option then
            schemaFlagsLoop fuel flags (pSkip 1 s2)
          else if kIgnoredOptionsWithArg.contains option then
            schemaFlagsLoop fuel flags (pSkip 2 s2)
          else (flags, s)
    else (flags, s)

/-- Body loop of `ParseSchema`: `field [AS alias] type params flags*`,
repeated while tokens remain. -/
def parseSchemaLoop (jsonValid : String → Bool) :
    Nat → DocIndex → PState → Except String (DocIndex × PState)
  | 0, idx, s => .ok (idx, s)
  | fuel + 1, idx, s =>
    if pHasNext s then
      let (field, s1) := pNext s
      if idx.type = DocType.JSON ∧ ¬ jsonValid field then
        .error ("Bad json path: " ++ field)
      else
        let (al?, s2) := pCheckStr "AS" s1
        let field_alias := al?.getD field
        if assocContains idx.schema.field_names field_alias then
          .error ("Duplicate field in schema - " ++ field_alias)
        else
          let t := pPeek s2
          let ft? :=
            if tagEq t "TAG" then some FieldType.TAG
            else if tagEq t "TEXT" then some FieldType.TEXT
            else if tagEq t "NUMERIC" then some FieldType.NUMERIC
            else if tagEq t "VECTOR" then some FieldType.VECTOR
            else none
          match ft? with
          | none =>
            let (tok, _) := pNext s2
            .error ("Field type " ++ tok ++ " is not supported")
          | some ft =>
            let s3 := pSkip 1 s2
            match parseTypedParams ft s3 with
            | .error e => .error e
            | .ok (params, s4) =>
              let (flags, s5) := schemaFlagsLoop (s4.toks.length + 1) 0 s4
              let schema := idx.schema
              let schema :=
                { schema with
                  fields := assocInsert schema.fields field
                    ⟨ft, flags, field_alias, params⟩,
                  field_names :=
                    assocInsert schema.field_names field_alias field }
              parseSchemaLoop jsonValid fuel { idx with schema := schema } s5
    else .ok (idx, s)

/-- `ParseSchema`: errors when no field arguments remain, then parses field
specs until the end of the argument list (SCHEMA is a terminal clause). -/
def ParseSchema (jsonValid : String → Bool) (idx : DocIndex) (s : PState) :
    Except String (DocIndex × PState) :=
  if ¬ pHasNext s then .error "Fields arguments are missing"
  else parseSchemaLoop jsonValid (s.toks.length + 1) idx s

/-- `ParseOnOption`: `ON {HASH|JSON}`. -/
def ParseOnOption (idx : DocIndex) (s : PState) : DocIndex × PState :=
  let (t, s1) := pNext s
  if tagEq t "HASH" then ({ idx with type := .HASH }, s1)
  else if tagEq t "JSON" then ({ idx with type := .JSON }, s1)
  else (idx, { s1 with perr := true })

/-- `ParsePrefix`: `PREFIX 1 <prefix>`; any other count is rejected. -/
def ParsePrefix (idx : DocIndex) (s : PState) :
    Except String (DocIndex × PState) :=
  let (isOne, s1) := pCheck "1" s
  if ¬ isOne then .error "Multiple prefixes are not supported"
  else
    let (p, s2) := pNext s1
    .ok ({ idx with keyPref := p }, s2)

/-- `ParseStopwords`: `STOPWORDS n word×n`, collected into a set. -/
def stopwordsLoop : Nat → List String → PState → List String × PState
  | 0, acc, s => (acc, s)
  | n + 1, acc, s =>
    let (w, s1) := pNext s
    stopwordsLoop n (if acc.contains w then acc else acc ++ [w]) s1

def ParseStopwords (idx : DocIndex) (s : PState) : DocIndex × PState :=
  let (num, s1) := pNextNat s
  let (ws, s2) := stopwordsLoop num [] s1
  ({ idx with options := { stopwords := ws } }, s2)

/-- Main loop of `ParseCreateParams`: ON / PREFIX / STOPWORDS / SCHEMA, with
unknown options skipped by one token; SCHEMA is terminal. -/
def parseCreateLoop (jsonValid : String → Bool) :
    Nat → PState → DocIndex → Except String (DocIndex × PState)
  | 0, s, idx => .ok (idx, s)
  | fuel + 1, s, idx =>
    if pHasNext s then
      let (isOn, sA) := pCheck "ON" s
      if isOn then
        let (idx1, sB) := ParseOnOption idx sA
        parseCreateLoop jsonValid fuel sB idx1
      else
        let (isPre, sC) := pCheck "PREFIX" sA
        if isPre then
          match ParsePrefix idx sC with
          | .error e => .error e
          | .ok (idx1, sD) => parseCreateLoop jsonValid fuel sD idx1
        else
          let (isStop, sE) := pCheck "STOPWORDS" sC
          if isStop then
            let (idx1, sF) := ParseStopwords idx sE
            parseCreateLoop jsonValid fuel sF idx1
          else
            let (isSchema, sG) := pCheck "SCHEMA" sE
            if isSchema then
              -- ParseSchema reports `false`: the caller breaks out of the loop
              ParseSchema jsonValid idx sG
            else
              -- Unsupported parameters are ignored for now
              parseCreateLoop jsonValid fuel (pSkip 1 sG) idx
    else .ok (idx, s)

/-- `ParseCreateParams`, starting from a fresh parser over `toks`. -/
def ParseCreateParams (jsonValid : String → Bool) (toks : List String) :
    Except String DocIndex :=
  match parseCreateLoop jsonValid (toks.length + 1) ⟨toks, false⟩ {} with
  | .error e => .error e
  | .ok (idx, s) => if s.perr then .error "tokenizer error" else .ok idx

/-!
### Cross-shard result merging (`SearchReply`, `PartialSort`)
-/

/-- `SerializedSearchDoc`: document key plus the two ranking scores.  The
field→value map is carried along in the source but no claim concerns its
contents, so it is not modelled; scores are `Int` (see the header comment). -/
structure SerializedSearchDoc where
  key : String := ""
  knn_score : Int := 0
  sort_score : Int := 0
deriving DecidableEq, Repr

/-- Per-shard `SearchResult`: total hit count, serialized documents and an
optional shard-local error. -/
structure SearchResult where
  total_hits : Nat := 0
  docs : List SerializedSearchDoc := []
  errorMsg : Option String := none
deriving DecidableEq, Repr

/-- The strict comparator handed to `std::partial_sort`:
ascending on `field l < field r`, descending on `field r < field l`. -/
def docLt (order : SortOrder) (field : SerializedSearchDoc → Int)
    (l r : SerializedSearchDoc) : Bool :=
  match order with
  | .ASC => field l < field r
  | .DESC => field r < field l

/-- `PartialSort(docs, limit, order, field)` wraps
`std::partial_sort(begin, begin + min(limit, size), end, cb)`: afterwards the
first `min(limit, size)` elements are the comparator-smallest ones in
comparator order, while the order of the remaining tail is unspecified.  The
model refines this by sorting the whole list with the induced total preorder
`¬ cb(r, l)` — one outcome permitted by the contract; theorems below only
rely on the sorted prefix of length `min(limit, size)`, on which every
permitted outcome agrees up to ties. -/
def PartialSort (docs : List SerializedSearchDoc) (_limit : Nat)
    (order : SortOrder) (field : SerializedSearchDoc → Int) :
    List SerializedSearchDoc :=
  docs.mergeSort (fun l r => !(docLt order field r l))

/-- Concatenation of the per-shard document vectors, in shard order. -/
def mergedDocs (results : List SearchResult) : List SerializedSearchDoc :=
  (results.map (fun r => r.docs)).flatten

/-- Sum of the per-shard `total_hits`. -/
def mergedHits (results : List SearchResult) : Nat :=
  (results.map (fun r => r.total_hits)).sum

/-- The KNN reorder-and-cut step of `SearchReply`: partial-sort by
`knn_score` ascending with limit `min(total_hits, K)`, then
`resize(min(size, K))`. -/
def knnCutDocs (k : KnnScoreSortOption) (total_hits : Nat)
    (docs : List SerializedSearchDoc) : List SerializedSearchDoc :=
  let th := min total_hits k.limit
  let sorted := PartialSort docs th .ASC (fun d => d.knn_score)
  sorted.take (min sorted.length k.limit)

/-- `ignore_sort` as computed inside the KNN branch of `SearchReply`:
`!params.sort_option || params.sort_option->IsSame(*knn_sort_option)`. -/
def ignoreSortOf (params : SearchParams) (k : KnnScoreSortOption) : Bool :=
  match params.sort_option with
  | none => true
  | some so => so.IsSame k

/-- The reply assembled by `SearchReply`: the total count sent first, then
the document records emitted for `i ∈ [offset, offset + limit)`. -/
structure SearchReplyOut where
  total : Nat
  docs : List SerializedSearchDoc
deriving DecidableEq, Repr

/-- `SearchReply` (reply assembly of FT.SEARCH): merge the per-shard results,
apply the KNN reorder/cut, compute effective offset and limit, apply SORTBY
when it differs from the KNN sort, and emit the window. -/
def SearchReply (params : SearchParams)
    (knn_sort_option : Option KnnScoreSortOption)
    (results : List SearchResult) : SearchReplyOut :=
  let docs0 := mergedDocs results
  let th0 := mergedHits results
  let (docs1, th1, ignore_sort) :=
    match knn_sort_option with
    | none => (docs0, th0, false)
    | some k => (knnCutDocs k th0 docs0, min th0 k.limit, ignoreSortOf params k)
  let offset := min params.limit_offset docs1.length
  let limit := min (docs1.length - offset) params.limit_total
  let docs2 :=
    match params.sort_option, ignore_sort with
    | some so, false =>
      PartialSort docs1 (offset + limit) so.order (fun d => d.sort_score)
    | _, _ => docs1
  ⟨th1, (docs2.take (offset + limit)).drop offset⟩

/-!
### FT.SEARCH shard fanout (`FtSearch`)
-/

/-- The `index_not_found` accumulation of `FtSearch`: an atomic flag,
initially false, set by every shard on which `GetIndex` returns null. -/
def ftSearchNotFound (absentOnShard : List Bool) : Bool :=
  absentOnShard.foldl (fun flag a => if a then true else flag) false

/-- The coordinator part of `FtSearch` after parsing and query
initialization: report "<idx>: no such index" when the not-found flag is set,
otherwise surface the first shard-local error, otherwise assemble the
reply. -/
def FtSearch (index_name : String) (absentOnShard : List Bool)
    (params : SearchParams) (knn : Option KnnScoreSortOption)
    (results : List SearchResult) : Except String SearchReplyOut :=
  if ftSearchNotFound absentOnShard then
    .error (index_name ++ ": no such index")
  else
    match results.findSome? (fun r => r.errorMsg) with
    | some e => .error e
    | none => .ok (SearchReply params knn results)

/-!
### Synonym propagation (`FtSynUpdate`, `FtSynDump`)
-/

/-- A shard-local synonym table: group id → terms of the group.  The source
stores it as a hash map; modelled as an association list (not necessarily
key-unique, which only strengthens the round-trip theorem). -/
abbrev SynGroups := List (String × List String)

/-- Replace-or-create of group `g`, as performed per shard by
`RebuildForGroup`.  Modelled from the spec: `RebuildForGroup` belongs to the
shard-local index (outside the given sources); per spec §4.6 "each shard
replaces (or creates) that group". -/
def synSetGroup (m : SynGroups) (g : String) (terms : List String) :
    SynGroups :=
  if m.any (fun p => p.1 == g) then
    m.map (fun p => if p.1 == g then (g, terms) else p)
  else m ++ [(g, terms)]

/-- `FtSynUpdate` broadcast: every shard replaces (or creates) group `g`. -/
def synUpdate (shards : List SynGroups) (g : String) (terms : List String) :
    List SynGroups :=
  shards.map (fun m => synSetGroup m g terms)

/-- `term_groups[term].insert(group_id)`: multimap insertion with set
semantics on the group-id list. -/
def addTermGroup (m : List (String × List String)) (term gid : String) :
    List (String × List String) :=
  if m.any (fun p => p.1 == term) then
    m.map (fun p =>
      if p.1 == term then (p.1, if gid ∈ p.2 then p.2 else p.2 ++ [gid])
      else p)
  else m ++ [(term, [gid])]

/-- Per-shard inversion in `FtSynDump`: walk group → terms and build
term → set of group ids. -/
def invertShard (groups : SynGroups) : List (String × List String) :=
  groups.foldl
    (fun acc p => p.2.foldl (fun acc2 term => addTermGroup acc2 term p.1) acc)
    []

/-- Coordinator merge in `FtSynDump`: `merged_ids.merge(group_ids)` performs
set-union of the shard's inverted map into the accumulator. -/
def mergeShardTerms (acc shard : List (String × List String)) :
    List (String × List String) :=
  shard.foldl
    (fun a p => p.2.foldl (fun a2 gid => addTermGroup a2 p.1 gid) a)
    acc

/-- The merged term → group-id-set map of `FtSynDump`, folded over the
per-shard inverted maps. -/
def synMerged (shards : List SynGroups) : List (String × List String) :=
  (shards.map invertShard).foldl mergeShardTerms []

/-- `FtSynDump` output: merged term → group-id sets, each id list sorted
before sending.  (The term iteration order of the hash map is unspecified;
the claims only concern which entries appear.) -/
def synDump (shards : List SynGroups) : List (String × List String) :=
  (synMerged shards).map
    (fun p => (p.1, p.2.mergeSort (fun a b => decide (a ≤ b))))

/-!
### Helper lemmas
-/

/-- The spec's criterion for the SEARCH not-found error, following the
claim's words: the index is absent on every shard. -/
def allShardsAbsent (absentOnShard : List Bool) : Bool :=
  absentOnShard.all (fun a => a)

theorem ftSearchNotFound_foldl (l : List Bool) (b : Bool) :
    l.foldl (fun flag a => if a then true else flag) b =
      (b || l.any (fun a => a)) := by
  induction l generalizing b with
  | nil => simp
  | cons x xs ih =>
    rw [List.foldl_cons, ih, List.any_cons]
    cases x <;> cases b <;> simp

theorem ftSearchNotFound_any (l : List Bool) :
    ftSearchNotFound l = l.any (fun a => a) := by
  simp only [ftSearchNotFound]
  rw [ftSearchNotFound_foldl]
  simp

/-!
### C1: not-found aggregation of FT.SEARCH
-/

/-- C1 counterexample: with two shards where only the second has the index
(`absentOnShard = [true, false]`), `FtSearch` returns the
"no such index" error even though not every shard reports absence — the
claim's "exactly when every shard reports absence" fails, and partial
presence is not treated as presence. -/
theorem c1_counterexample :
    ftSearchNotFound [true, false] = true ∧
    allShardsAbsent [true, false] = false ∧
    FtSearch "idx" [true, false] {} none [] =
      .error "idx: no such index" := by
  refine ⟨by decide, by decide, by rfl⟩

/-- C1 amended: for every SEARCH invocation the error "<idx>: no such index"
is returned exactly when **at least one** shard reports that the index is
absent; only when no shard reports absence does the command proceed (to
shard-error propagation and reply assembly). -/
theorem c1_amended (name : String) (absent : List Bool)
    (params : SearchParams) (knn : Option KnnScoreSortOption)
    (results : List SearchResult) :
    (ftSearchNotFound absent = absent.any (fun a => a)) ∧
    (ftSearchNotFound absent = true →
      FtSearch name absent params knn results =
        .error (name ++ ": no such index")) ∧
    (ftSearchNotFound absent = false →
      FtSearch name absent params knn results =
        match results.findSome? (fun r => r.errorMsg) with
        | some e => .error e
        | none => .ok (SearchReply params knn results)) := by
  refine ⟨ftSearchNotFound_any absent, ?_, ?_⟩
  · intro h
    simp [FtSearch, h]
  · intro h
    simp [FtSearch, h]

/-- C1 amended, witness: concrete instantiation with one present and one
absent shard. -/
theorem c1_amended_witness :
    FtSearch "i" [false, true] {} none [] = .error "i: no such index" :=
  (c1_amended "i" [false, true] {} none []).2.1 (by decide)

/-!
### C10: the PARAMS loop guard counts distinct keys
-/

/-- C10: the `ParseQueryParams` loop guard compares twice the number of
distinct stored keys against the declared count, so duplicate keys make the
parser consume extra pairs: with `PARAMS 4 k v1 k v2 k2 v3`, three pairs
(six tokens) are consumed instead of two, swallowing `k2 v3` that would
otherwise belong to the next clause, and the duplicate key maps to its last
value. -/
theorem c10_params_guard (k v1 v2 k2 v3 : String) (rest : List String)
    (e : Bool) (hk : (k == k2) = false) :
    ParseQueryParams ⟨"4" :: k :: v1 :: k :: v2 :: k2 :: v3 :: rest, e⟩ =
      ([(k, v2), (k2, v3)], ⟨rest, e⟩) := by
  have h4 : tokToNat "4" = some 4 := by decide
  simp [ParseQueryParams, pNextNat, pNext, qpGo, pHasNext, qpInsert, h4, hk]

/-- C10 witness: concrete duplicate-key instance. -/
theorem c10_params_guard_witness :
    ParseQueryParams ⟨["4", "a", "1", "a", "2", "b", "3", "NEXT"], false⟩ =
      ([("a", "2"), ("b", "3")], ⟨["NEXT"], false⟩) :=
  c10_params_guard "a" "1" "2" "b" "3" ["NEXT"] false (by decide)

/-!
### C9: NOCONTENT overrides an earlier RETURN
-/

/-- C9: when a NOCONTENT clause is processed with return-fields already
populated (e.g. by an earlier RETURN), the return-field list is replaced by
the empty list — NOCONTENT overrides the earlier RETURN (ids-only reply,
encoded as an empty return-field list) instead of being rejected or ignored;
concretely, `RETURN 1 a NOCONTENT` parses to an empty return-field list. -/
theorem c9_nocontent_overrides_return :
    (∀ (fuel : Nat) (rest : List String) (e : Bool) (p : SearchParams)
       (l : List FieldReference), p.return_fields = some l →
       parseSearchLoop (fuel + 1) ⟨"NOCONTENT" :: rest, e⟩ p =
         parseSearchLoop fuel ⟨rest, e⟩ { p with return_fields := some [] }) ∧
    ParseSearchParams ["RETURN", "1", "a", "NOCONTENT"] =
      .ok { return_fields := some [] } := by
  constructor
  · intro fuel rest e p l hret
    have h1 : tagEq "NOCONTENT" "LIMIT" = false := by decide
    have h2 : tagEq "NOCONTENT" "LOAD" = false := by decide
    have h3 : tagEq "NOCONTENT" "RETURN" = false := by decide
    have h4 : tagEq "NOCONTENT" "NOCONTENT" = true := by decide
    simp [parseSearchLoop, pHasNext, pCheck, h1, h2, h3, h4]
  · rfl

/-- C9 witness: the loop-level override applied after a parsed RETURN. -/
theorem c9_nocontent_overrides_return_witness :
    parseSearchLoop 1 ⟨["NOCONTENT"], false⟩
        { return_fields := some [⟨"a", ""⟩] } =
      parseSearchLoop 0 ⟨[], false⟩
        { return_fields := some ([] : List FieldReference) } :=
  c9_nocontent_overrides_return.1 0 [] false _ [⟨"a", ""⟩] rfl

/-!
### C5: LOAD/RETURN exclusion
-/

/-- The invariant that actually holds of parsed SEARCH plans: whenever
load-fields are present, the return-field list is absent or empty. -/
def loadReturnExcl (p : SearchParams) : Prop :=
  p.load_fields.isSome = true → p.return_fields = none ∨ p.return_fields = some []

set_option maxHeartbeats 2000000 in
theorem searchLoop_excl (fuel : Nat) :
    ∀ (s : PState) (p : SearchParams), loadReturnExcl p →
      ∀ (q : SearchParams) (s2 : PState),
        parseSearchLoop fuel s p = .ok (q, s2) → loadReturnExcl q := by
  induction fuel with
  | zero =>
    intro s p hp q s2 h
    simp only [parseSearchLoop] at h
    obtain ⟨rfl, rfl⟩ := h
    exact hp
  | succ fuel ih =>
    rintro ⟨toks, e⟩ p hp q s2 h
    match toks with
    | [] =>
      simp only [parseSearchLoop, pHasNext] at h
      obtain ⟨rfl, rfl⟩ := h
      exact hp
    | t :: ts =>
      by_cases hL : tagEq t "LIMIT" = true
      · rcases hoff : pNextNat ⟨ts, e⟩ with ⟨off, sB⟩
        rcases htot : pNextNat sB with ⟨tot, sC⟩
        simp only [parseSearchLoop, pHasNext, pCheck, hL, if_true, hoff, htot,
          List.isEmpty_cons, Bool.not_false, if_pos] at h
        exact ih sC { p with limit_offset := off, limit_total := tot } hp q s2 h
      · by_cases hLo : tagEq t "LOAD" = true
        · rcases hfs : ParseLoadOrReturnFields true ⟨ts, e⟩ with ⟨fs, sE⟩
          by_cases hret : p.return_fields.isSome = true
          · simp only [parseSearchLoop, pHasNext, pCheck, hL, hLo, hret,
              List.isEmpty_cons, Bool.not_false, if_pos, if_true, if_false,
              Bool.false_eq_true] at h
            simp at h
          · have hretn : p.return_fields = none := by
              cases hrf : p.return_fields with
              | none => rfl
              | some l => rw [hrf] at hret; simp at hret
            simp only [parseSearchLoop, pHasNext, pCheck, hL, hLo, hret, hfs,
              List.isEmpty_cons, Bool.not_false, if_pos, if_true, if_false,
              Bool.false_eq_true] at h
            refine ih sE _ ?_ q s2 h
            intro _
            left
            simpa using hretn
        · by_cases hR : tagEq t "RETURN" = true
          · by_cases hld : p.load_fields.isSome = true
            · simp only [parseSearchLoop, pHasNext, pCheck, hL, hLo, hR, hld,
                List.isEmpty_cons, Bool.not_false, if_pos, if_true, if_false,
                Bool.false_eq_true] at h
              simp at h
            · by_cases hret : p.return_fields.isSome = true
              · simp only [parseSearchLoop, pHasNext, pCheck, hL, hLo, hR, hld,
                  hret, List.isEmpty_cons, Bool.not_false, if_pos, if_true,
                  if_false, Bool.false_eq_true] at h
                exact ih _ _ hp q s2 h
              · rcases hfs : ParseLoadOrReturnFields false ⟨ts, e⟩ with ⟨fs, sG⟩
                simp only [parseSearchLoop, pHasNext, pCheck, hL, hLo, hR, hld,
                  hret, hfs, List.isEmpty_cons, Bool.not_false, if_pos, if_true,
                  if_false, Bool.false_eq_true] at h
                refine ih sG _ ?_ q s2 h
                intro hcon
                exact absurd hcon hld
          · by_cases hN : tagEq t "NOCONTENT" = true
            · simp only [parseSearchLoop, pHasNext, pCheck, hL, hLo, hR, hN,
                List.isEmpty_cons, Bool.not_false, if_pos, if_true, if_false,
                Bool.false_eq_true] at h
              refine ih _ _ ?_ q s2 h
              intro _
              right
              rfl
            · by_cases hP : tagEq t "PARAMS" = true
              · rcases hqp : ParseQueryParams ⟨ts, e⟩ with ⟨qp, sJ⟩
                simp only [parseSearchLoop, pHasNext, pCheck, hL, hLo, hR, hN,
                  hP, hqp, List.isEmpty_cons, Bool.not_false, if_pos, if_true,
                  if_false, Bool.false_eq_true] at h
                refine ih sJ _ ?_ q s2 h
                exact hp
              · by_cases hS : tagEq t "SORTBY" = true
                · rcases hf : ParseField ⟨ts, e⟩ with ⟨f, sL⟩
                  simp only [parseSearchLoop, pHasNext, pCheck, hL, hLo, hR,
                    hN, hP, hS, hf, List.isEmpty_cons, Bool.not_false, if_pos,
                    if_true, if_false, Bool.false_eq_true] at h
                  refine ih _ _ ?_ q s2 h
                  exact hp
                · simp only [parseSearchLoop, pHasNext, pCheck, hL, hLo, hR,
                    hN, hP, hS, pSkip, List.isEmpty_cons, Bool.not_false,
                    if_pos, if_true, if_false, Bool.false_eq_true,
                    List.drop_succ_cons, List.drop_zero] at h
                  exact ih _ _ hp q s2 h

/-- C5 counterexample: `LOAD 1 f NOCONTENT` parses successfully into a plan
whose load-fields AND return-fields are both populated (the latter with the
empty list installed by NOCONTENT), so the claimed invariant "the parsed plan
never has both load-fields and return-fields populated" fails. -/
theorem c5_counterexample :
    ParseSearchParams ["LOAD", "1", "f", "NOCONTENT"] =
      .ok { load_fields := some [⟨"f", ""⟩], return_fields := some [] } ∧
    (match ParseSearchParams ["LOAD", "1", "f", "NOCONTENT"] with
     | .ok p => p.load_fields.isSome && p.return_fields.isSome
     | .error _ => false) = true :=
  ⟨rfl, rfl⟩

/-- C5 amended: for every SEARCH argument sequence the parsed plan never has
both load-fields populated and a **non-empty** return-field list (a NOCONTENT
clause after LOAD may leave both present, with the return-field list empty);
a LOAD clause appearing after a RETURN clause yields a syntax error, a RETURN
clause appearing after a LOAD clause yields a syntax error, and a RETURN
clause appearing after NOCONTENT is silently ignored. -/
theorem c5_amended :
    (∀ toks p, ParseSearchParams toks = .ok p → loadReturnExcl p) ∧
    (∀ (fuel : Nat) (rest : List String) (e : Bool) (p : SearchParams),
      p.return_fields.isSome = true →
      parseSearchLoop (fuel + 1) ⟨"LOAD" :: rest, e⟩ p =
        .error "LOAD cannot be applied after RETURN") ∧
    (∀ (fuel : Nat) (rest : List String) (e : Bool) (p : SearchParams),
      p.load_fields.isSome = true →
      parseSearchLoop (fuel + 1) ⟨"RETURN" :: rest, e⟩ p =
        .error "RETURN cannot be applied after LOAD") ∧
    (∀ (fuel : Nat) (rest : List String) (e : Bool) (p : SearchParams)
       (l : List FieldReference),
      p.return_fields = some l → p.load_fields.isSome = false →
      parseSearchLoop (fuel + 1) ⟨"RETURN" :: rest, e⟩ p =
        parseSearchLoop fuel ⟨rest, e⟩ p) := by
  refine ⟨?_, ?_, ?_, ?_⟩
  · intro toks p h
    unfold ParseSearchParams at h
    rcases hres : parseSearchLoop (toks.length + 1) ⟨toks, false⟩ {} with e | ⟨q, s⟩
    · rw [hres] at h
      exact absurd h (by simp)
    · rw [hres] at h
      by_cases hperr : s.perr = true
      · simp [hperr] at h
      · simp [hperr] at h
        subst h
        exact searchLoop_excl _ _ _ (fun hx => absurd hx (by decide)) q s hres
  · intro fuel rest e p hret
    have h1 : tagEq "LOAD" "LIMIT" = false := by decide
    have h2 : tagEq "LOAD" "LOAD" = true := by decide
    simp [parseSearchLoop, pHasNext, pCheck, h1, h2, hret]
  · intro fuel rest e p hld
    have h1 : tagEq "RETURN" "LIMIT" = false := by decide
    have h2 : tagEq "RETURN" "LOAD" = false := by decide
    have h3 : tagEq "RETURN" "RETURN" = true := by decide
    simp [parseSearchLoop, pHasNext, pCheck, h1, h2, h3, hld]
  · intro fuel rest e p l hret hld
    have h1 : tagEq "RETURN" "LIMIT" = false := by decide
    have h2 : tagEq "RETURN" "LOAD" = false := by decide
    have h3 : tagEq "RETURN" "RETURN" = true := by decide
    have hret' : p.return_fields.isSome = true := by rw [hret]; rfl
    simp [parseSearchLoop, pHasNext, pCheck, h1, h2, h3, hld, hret']

/-- C5 amended, witness: concrete instantiations of all four parts. -/
theorem c5_amended_witness :
    loadReturnExcl { limit_offset := 2, limit_total := 3 } ∧
    parseSearchLoop 1 ⟨["LOAD"], false⟩
        { return_fields := some ([] : List FieldReference) } =
      .error "LOAD cannot be applied after RETURN" ∧
    parseSearchLoop 1 ⟨["RETURN"], false⟩
        { load_fields := some ([] : List FieldReference) } =
      .error "RETURN cannot be applied after LOAD" ∧
    parseSearchLoop 1 ⟨["RETURN"], false⟩
        { return_fields := some ([] : List FieldReference) } =
      parseSearchLoop 0 ⟨[], false⟩
        { return_fields := some ([] : List FieldReference) } :=
  ⟨c5_amended.1 ["LIMIT", "2", "3"] _ (by rfl),
   c5_amended.2.1 0 [] false _ (by rfl),
   c5_amended.2.2.1 0 [] false _ (by rfl),
   c5_amended.2.2.2 0 [] false _ [] rfl (by rfl)⟩

/-!
### C6: unknown-option asymmetry between CREATE/SEARCH and AGGREGATE
-/

/-- C6: a token that tag-matches no recognized top-level option is skipped —
exactly one token, continuing without error — by both the SEARCH clause loop
and the CREATE option loop, whereas the AGGREGATE clause loop returns a hard
syntax error naming the unknown clause. -/
theorem c6_unknown_token_asymmetry :
    (∀ (fuel : Nat) (tok : String) (rest : List String) (e : Bool)
       (p : SearchParams),
      (tagEq tok "LIMIT" || tagEq tok "LOAD" || tagEq tok "RETURN" ||
        tagEq tok "NOCONTENT" || tagEq tok "PARAMS" || tagEq tok "SORTBY")
        = false →
      parseSearchLoop (fuel + 1) ⟨tok :: rest, e⟩ p =
        parseSearchLoop fuel ⟨rest, e⟩ p) ∧
    (∀ (fuel : Nat) (tok : String) (rest : List String) (e : Bool)
       (jsonValid : String → Bool) (idx : DocIndex),
      (tagEq tok "ON" || tagEq tok "PREFIX" || tagEq tok "STOPWORDS" ||
        tagEq tok "SCHEMA") = false →
      parseCreateLoop jsonValid (fuel + 1) ⟨tok :: rest, e⟩ idx =
        parseCreateLoop jsonValid fuel ⟨rest, e⟩ idx) ∧
    (∀ (fuel : Nat) (tok : String) (rest : List String) (e : Bool)
       (rejectLegacy : Bool) (p : AggregateParams),
      (tagEq tok "GROUPBY" || tagEq tok "SORTBY" || tagEq tok "LIMIT" ||
        tagEq tok "PARAMS" || tagEq tok "LOAD") = false →
      parseAggLoop rejectLegacy (fuel + 1) ⟨tok :: rest, e⟩ p =
        .error ("Unknown clause: " ++ tok)) := by
  refine ⟨?_, ?_, ?_⟩
  · intro fuel tok rest e p hu
    simp only [Bool.or_eq_false_iff] at hu
    obtain ⟨⟨⟨⟨⟨h1, h2⟩, h3⟩, h4⟩, h5⟩, h6⟩ := hu
    simp [parseSearchLoop, pHasNext, pCheck, pSkip, h1, h2, h3, h4, h5, h6]
  · intro fuel tok rest e jsonValid idx hu
    simp only [Bool.or_eq_false_iff] at hu
    obtain ⟨⟨⟨h1, h2⟩, h3⟩, h4⟩ := hu
    simp [parseCreateLoop, pHasNext, pCheck, pSkip, h1, h2, h3, h4]
  · intro fuel tok rest e rejectLegacy p hu
    simp only [Bool.or_eq_false_iff] at hu
    obtain ⟨⟨⟨⟨h1, h2⟩, h3⟩, h4⟩, h5⟩ := hu
    simp [parseAggLoop, pHasNext, pCheck, pPeek, h1, h2, h3, h4, h5]

/-- C6 witness: the unknown token "BADCLAUSE" skipped by SEARCH and CREATE,
rejected by AGGREGATE. -/
theorem c6_unknown_token_asymmetry_witness :
    parseSearchLoop 1 ⟨["BADCLAUSE"], false⟩ {} =
      parseSearchLoop 0 ⟨[], false⟩ {} ∧
    parseCreateLoop (fun _ => true) 1 ⟨["BADCLAUSE"], false⟩ {} =
      parseCreateLoop (fun _ => true) 0 ⟨[], false⟩ {} ∧
    parseAggLoop true 1 ⟨["BADCLAUSE"], false⟩ {} =
      .error "Unknown clause: BADCLAUSE" :=
  ⟨c6_unknown_token_asymmetry.1 0 "BADCLAUSE" [] false {} (by decide),
   c6_unknown_token_asymmetry.2.1 0 "BADCLAUSE" [] false (fun _ => true) {}
     (by decide),
   c6_unknown_token_asymmetry.2.2 0 "BADCLAUSE" [] false true {} (by decide)⟩

/-!
### C3: effective offset and limit of the reply window
-/

theorem length_PartialSort (l : List SerializedSearchDoc) (lim : Nat)
    (ord : SortOrder) (f : SerializedSearchDoc → Int) :
    (PartialSort l lim ord f).length = l.length := by
  simp [PartialSort]

/-- C3: for every SEARCH reply over the merged document list, the effective
offset is `min(params.offset, |docs|)` and the effective limit is
`min(|docs| - offset, params.total)`; the emitted records are exactly the
documents with indices in `[offset, offset + limit)` (after the total count),
and when `offset ≥ |docs|` no records follow the total. -/
theorem c3_offset_limit (params : SearchParams) (results : List SearchResult) :
    (SearchReply params none results).total = mergedHits results ∧
    (SearchReply params none results).docs.length =
      min ((mergedDocs results).length -
            min params.limit_offset (mergedDocs results).length)
          params.limit_total ∧
    (params.sort_option = none →
      (SearchReply params none results).docs =
        ((mergedDocs results).drop
            (min params.limit_offset (mergedDocs results).length)).take
          (min ((mergedDocs results).length -
                 min params.limit_offset (mergedDocs results).length)
               params.limit_total)) ∧
    ((mergedDocs results).length ≤ params.limit_offset →
      (SearchReply params none results).docs = []) := by
  have hlen : (SearchReply params none results).docs.length =
      min ((mergedDocs results).length -
            min params.limit_offset (mergedDocs results).length)
          params.limit_total := by
    cases hso : params.sort_option with
    | none =>
      simp only [SearchReply, hso, List.length_drop, List.length_take]
      omega
    | some so =>
      simp only [SearchReply, hso, List.length_drop, List.length_take,
        length_PartialSort]
      omega
  refine ⟨?_, hlen, ?_, ?_⟩
  · cases hso : params.sort_option <;> simp [SearchReply, hso]
  · intro hso
    simp only [SearchReply, hso]
    exact (List.take_drop _ _ _).symm
  · intro hoff
    refine List.eq_nil_of_length_eq_zero ?_
    rw [hlen]
    omega

/-- C3 witness: three documents, offset beyond the list ⇒ total printed,
zero records. -/
theorem c3_offset_limit_witness :
    (SearchReply { limit_offset := 5, limit_total := 10 } none
        [{ total_hits := 3,
           docs := [⟨"a", 0, 0⟩, ⟨"b", 0, 0⟩, ⟨"c", 0, 0⟩] }]).docs = [] :=
  (c3_offset_limit { limit_offset := 5, limit_total := 10 }
      [{ total_hits := 3,
         docs := [⟨"a", 0, 0⟩, ⟨"b", 0, 0⟩, ⟨"c", 0, 0⟩] }]).2.2.2
    (by decide)

/-!
### C2: KNN re-ranking and truncation
-/

/-- Score order requested by a SORTBY direction. -/
def orderedRel : SortOrder → Int → Int → Prop
  | .ASC => fun a b => a ≤ b
  | .DESC => fun a b => b ≤ a

theorem pairwise_PartialSort (lim : Nat) (ord : SortOrder)
    (f : SerializedSearchDoc → Int) (l : List SerializedSearchDoc) :
    (PartialSort l lim ord f).Pairwise
      (fun a b => orderedRel ord (f a) (f b)) := by
  have trans : ∀ a b c : SerializedSearchDoc,
      (!(docLt ord f b a)) = true → (!(docLt ord f c b)) = true →
      (!(docLt ord f c a)) = true := by
    intro a b c hab hbc
    cases ord <;> simp [docLt] at hab hbc ⊢ <;> omega
  have total : ∀ a b : SerializedSearchDoc,
      ((!(docLt ord f b a)) || (!(docLt ord f a b))) = true := by
    intro a b
    cases ord <;> simp [docLt] <;> omega
  have h := List.sorted_mergeSort trans total l
  refine h.imp ?_
  intro a b hab
  cases ord <;> simp [docLt, orderedRel] at hab ⊢ <;> omega

/-- The window `[offset, offset + limit)` emitted from a list is a sublist of
that list. -/
theorem emit_sublist (l : List SerializedSearchDoc) (n o : Nat) :
    ((l.take n).drop o).Sublist l :=
  ((l.take n).drop_sublist o).trans (l.take_sublist n)

/-- C2: with a KNN sort descriptor of limit K over N concatenated documents
(no shard under-reporting its hit count), the merger re-ranks by
`knn_score` ascending and truncates: the reply total is
`min(total_hits, K)`, the kept document list has length `min(N, K)` and is
non-decreasing in `knn_score`, and with no SORTBY clause present the emitted
documents appear in non-decreasing `knn_score` order. -/
theorem c2_knn_rerank (params : SearchParams) (k : KnnScoreSortOption)
    (results : List SearchResult)
    (hN : (mergedDocs results).length ≤ mergedHits results) :
    (SearchReply params (some k) results).total =
      min (mergedHits results) k.limit ∧
    (knnCutDocs k (mergedHits results) (mergedDocs results)).length =
      min (mergedDocs results).length k.limit ∧
    ((knnCutDocs k (mergedHits results) (mergedDocs results)).map
        (fun d => d.knn_score)).Sorted (· ≤ ·) ∧
    (params.sort_option = none →
      ((SearchReply params (some k) results).docs.map
          (fun d => d.knn_score)).Sorted (· ≤ ·)) := by
  have hcutPW : (knnCutDocs k (mergedHits results) (mergedDocs results)).Pairwise
      (fun a b => a.knn_score ≤ b.knn_score) := by
    have hsorted := pairwise_PartialSort
      (min (mergedHits results) k.limit) .ASC (fun d => d.knn_score)
      (mergedDocs results)
    simp only [orderedRel] at hsorted
    exact List.Pairwise.sublist (List.take_sublist _ _) hsorted
  refine ⟨?_, ?_, ?_, ?_⟩
  · simp [SearchReply]
  · simp [knnCutDocs, length_PartialSort]
  · exact List.pairwise_map.mpr hcutPW
  · intro hso
    simp only [SearchReply, hso, ignoreSortOf]
    refine List.pairwise_map.mpr ?_
    exact List.Pairwise.sublist (emit_sublist _ _ _) hcutPW

/-- C2 witness: two shards, K = 2, documents re-ranked ascending by
`knn_score`. -/
theorem c2_knn_rerank_witness :
    (SearchReply { limit_offset := 0, limit_total := 10 } (some ⟨"sc", 2⟩)
        [{ total_hits := 2, docs := [⟨"a", 5, 0⟩, ⟨"b", 1, 0⟩] },
         { total_hits := 1, docs := [⟨"c", 3, 0⟩] }]).total = 2 ∧
    ((SearchReply { limit_offset := 0, limit_total := 10 } (some ⟨"sc", 2⟩)
        [{ total_hits := 2, docs := [⟨"a", 5, 0⟩, ⟨"b", 1, 0⟩] },
         { total_hits := 1, docs := [⟨"c", 3, 0⟩] }]).docs.map
        (fun d => d.knn_score)).Sorted (· ≤ ·) := by
  have h := c2_knn_rerank { limit_offset := 0, limit_total := 10 } ⟨"sc", 2⟩
    [{ total_hits := 2, docs := [⟨"a", 5, 0⟩, ⟨"b", 1, 0⟩] },
     { total_hits := 1, docs := [⟨"c", 3, 0⟩] }] (by decide)
  exact ⟨h.1, h.2.2.2 rfl⟩

/-!
### C4: when the SORTBY partial sort is applied
-/

/-- The `[offset, offset + limit)` window emitted by `SearchReply` over its
final document list. -/
def emitWindow (params : SearchParams) (l : List SerializedSearchDoc) :
    List SerializedSearchDoc :=
  let offset := min params.limit_offset l.length
  let limit := min (l.length - offset) params.limit_total
  (l.take (offset + limit)).drop offset

/-- C4: the SORTBY partial sort by `sort_score` over the first
`offset + limit` documents in the requested direction is applied iff a sort
option is present and either no KNN sort descriptor is carried or the SORTBY
target differs from the KNN sort alias; otherwise the SORTBY step is skipped
and the window is cut from the (possibly KNN-cut) list unchanged.  When
applied, the emitted documents are ordered by `sort_score` in the requested
direction. -/
theorem c4_sortby_application (params : SearchParams) (k : KnnScoreSortOption)
    (results : List SearchResult) :
    (∀ so, params.sort_option = some so →
      SearchReply params none results =
        ⟨mergedHits results,
         emitWindow params
           (PartialSort (mergedDocs results)
             (min params.limit_offset (mergedDocs results).length +
              min ((mergedDocs results).length -
                    min params.limit_offset (mergedDocs results).length)
                  params.limit_total)
             so.order (fun d => d.sort_score))⟩) ∧
    (∀ so, params.sort_option = some so →
      ((SearchReply params none results).docs.map
          (fun d => d.sort_score)).Pairwise (orderedRel so.order)) ∧
    (∀ so, params.sort_option = some so → so.IsSame k = false →
      SearchReply params (some k) results =
        ⟨min (mergedHits results) k.limit,
         emitWindow params
           (PartialSort
             (knnCutDocs k (mergedHits results) (mergedDocs results))
             (min params.limit_offset
                (knnCutDocs k (mergedHits results)
                  (mergedDocs results)).length +
              min ((knnCutDocs k (mergedHits results)
                      (mergedDocs results)).length -
                    min params.limit_offset
                      (knnCutDocs k (mergedHits results)
                        (mergedDocs results)).length)
                  params.limit_total)
             so.order (fun d => d.sort_score))⟩) ∧
    (∀ so, params.sort_option = some so → so.IsSame k = false →
      ((SearchReply params (some k) results).docs.map
          (fun d => d.sort_score)).Pairwise (orderedRel so.order)) ∧
    (∀ so, params.sort_option = some so → so.IsSame k = true →
      SearchReply params (some k) results =
        ⟨min (mergedHits results) k.limit,
         emitWindow params
           (knnCutDocs k (mergedHits results) (mergedDocs results))⟩) ∧
    (params.sort_option = none →
      SearchReply params (some k) results =
        ⟨min (mergedHits results) k.limit,
         emitWindow params
           (knnCutDocs k (mergedHits results) (mergedDocs results))⟩) := by
  refine ⟨?_, ?_, ?_, ?_, ?_, ?_⟩
  · intro so hso
    simp [SearchReply, emitWindow, hso, length_PartialSort]
  · intro so hso
    refine List.pairwise_map.mpr ?_
    have hPW := pairwise_PartialSort
      (min params.limit_offset (mergedDocs results).length +
       min ((mergedDocs results).length -
             min params.limit_offset (mergedDocs results).length)
           params.limit_total)
      so.order (fun d => d.sort_score) (mergedDocs results)
    simp only [SearchReply, hso]
    exact List.Pairwise.sublist (emit_sublist _ _ _) hPW
  · intro so hso hsame
    simp [SearchReply, emitWindow, hso, ignoreSortOf, hsame,
      length_PartialSort]
  · intro so hso hsame
    refine List.pairwise_map.mpr ?_
    have hPW := pairwise_PartialSort
      (min params.limit_offset
         (knnCutDocs k (mergedHits results) (mergedDocs results)).length +
       min ((knnCutDocs k (mergedHits results) (mergedDocs results)).length -
             min params.limit_offset
               (knnCutDocs k (mergedHits results)
                 (mergedDocs results)).length)
           params.limit_total)
      so.order (fun d => d.sort_score)
      (knnCutDocs k (mergedHits results) (mergedDocs results))
    simp only [SearchReply, hso, ignoreSortOf, hsame]
    exact List.Pairwise.sublist (emit_sublist _ _ _) hPW
  · intro so hso hsame
    simp [SearchReply, emitWindow, hso, ignoreSortOf, hsame]
  · intro hso
    simp [SearchReply, emitWindow, hso, ignoreSortOf]

/-- C4 witness: SORTBY applied with no KNN (descending by `sort_score`), and
skipped when the SORTBY target is the KNN alias. -/
theorem c4_sortby_application_witness :
    ((SearchReply
        { limit_offset := 0, limit_total := 10,
          sort_option := some ⟨⟨"s", ""⟩, .DESC⟩ } none
        [{ total_hits := 2,
           docs := [⟨"a", 0, 1⟩, ⟨"b", 0, 7⟩] }]).docs.map
        (fun d => d.sort_score)).Pairwise (orderedRel SortOrder.DESC) ∧
    SearchReply
        { limit_offset := 0, limit_total := 10,
          sort_option := some ⟨⟨"sc", ""⟩, .ASC⟩ } (some ⟨"sc", 5⟩)
        [{ total_hits := 2,
           docs := [⟨"a", 0, 1⟩, ⟨"b", 0, 7⟩] }] =
      ⟨2, emitWindow
            { limit_offset := 0, limit_total := 10,
              sort_option := some ⟨⟨"sc", ""⟩, .ASC⟩ }
            (knnCutDocs ⟨"sc", 5⟩ 2 [⟨"a", 0, 1⟩, ⟨"b", 0, 7⟩])⟩ := by
  constructor
  · exact (c4_sortby_application
      { limit_offset := 0, limit_total := 10,
        sort_option := some ⟨⟨"s", ""⟩, .DESC⟩ } ⟨"x", 0⟩
      [{ total_hits := 2,
         docs := [⟨"a", 0, 1⟩, ⟨"b", 0, 7⟩] }]).2.1 ⟨⟨"s", ""⟩, .DESC⟩ rfl
  · exact (c4_sortby_application
      { limit_offset := 0, limit_total := 10,
        sort_option := some ⟨⟨"sc", ""⟩, .ASC⟩ } ⟨"sc", 5⟩
      [{ total_hits := 2,
         docs := [⟨"a", 0, 1⟩, ⟨"b", 0, 7⟩] }]).2.2.2.2.1
      ⟨⟨"sc", ""⟩, .ASC⟩ rfl (by decide)

/-!
### C7: AGGREGATE SORTBY string budget and `@` requirement
-/

theorem pCheck_true_toks (tag : String) (s s' : PState)
    (h : pCheck tag s = (true, s')) : ∃ x, s.toks = x :: s'.toks := by
  obtain ⟨toks, e⟩ := s
  cases toks with
  | nil => simp [pCheck] at h
  | cons t ts =>
    by_cases ht : tagEq t tag = true
    · simp only [pCheck, ht, if_true] at h
      have h2 : (⟨ts, e⟩ : PState) = s' := congrArg Prod.snd h
      exact ⟨t, by rw [← h2]⟩
    · simp [pCheck, ht] at h

theorem pCheck_false_eq (tag : String) (s s' : PState)
    (h : pCheck tag s = (false, s')) : s' = s := by
  obtain ⟨toks, e⟩ := s
  cases toks with
  | nil =>
    simp only [pCheck] at h
    exact (congrArg Prod.snd h).symm
  | cons t ts =>
    by_cases ht : tagEq t tag = true
    · simp [pCheck, ht] at h
    · simp only [pCheck, ht, if_false] at h
      exact (congrArg Prod.snd h).symm

theorem ParseFieldWithAtSign_cons (rl : Bool) (t : String) (ts : List String)
    (e : Bool) :
    ParseFieldWithAtSign rl ⟨t :: ts, e⟩ =
      (if startsWithAt t then some (t.drop 1)
       else if rl then none else some t, ⟨ts, e⟩) := by
  simp only [ParseFieldWithAtSign, pNext]
  split <;> [rfl; split <;> rfl]

theorem aggSortLoop_consumed (rl : Bool) :
    ∀ (fuel n : Nat) (s : PState) (acc fs : List (String × SortOrder))
      (r : Nat) (s2 : PState),
      aggSortLoop rl fuel n s acc = .ok (fs, r, s2) →
      s.toks.length + r = s2.toks.length + n ∧
      (s.toks.length < fuel → r ≠ 0 → s2.toks = []) := by
  intro fuel
  induction fuel with
  | zero =>
    intro n s acc fs r s2 h
    simp only [aggSortLoop, Except.ok.injEq, Prod.mk.injEq] at h
    obtain ⟨rfl, rfl, rfl⟩ := h
    exact ⟨by omega, fun hlt => absurd hlt (by omega)⟩
  | succ fuel ih =>
    intro n s acc fs r s2 h
    obtain ⟨toks, e⟩ := s
    cases toks with
    | nil =>
      simp only [aggSortLoop, pHasNext, List.isEmpty_nil, Bool.not_true,
        Bool.false_eq_true, false_and, if_false, Except.ok.injEq,
        Prod.mk.injEq] at h
      obtain ⟨rfl, rfl, rfl⟩ := h
      exact ⟨by simp, fun _ _ => rfl⟩
    | cons t ts =>
      cases n with
      | zero =>
        simp only [aggSortLoop, pHasNext, Nat.lt_irrefl, gt_iff_lt, and_false,
          if_false, Except.ok.injEq, Prod.mk.injEq] at h
        obtain ⟨rfl, rfl, rfl⟩ := h
        exact ⟨by omega, fun _ hr => absurd rfl hr⟩
      | succ n' =>
        simp only [aggSortLoop, pHasNext, pPeek, ParseFieldWithAtSign_cons,
          List.isEmpty_cons, Bool.not_false, gt_iff_lt, Nat.succ_pos,
          and_true, if_true, and_self, Nat.add_sub_cancel, true_and] at h
        rcases hpf : (if startsWithAt t = true then some (t.drop 1)
            else if rl = true then none else some t) with - | field
        · rw [hpf] at h
          simp at h
        · rw [hpf] at h
          cases n' with
          | zero =>
            simp only [Nat.lt_irrefl, if_false, Nat.add_sub_cancel] at h
            obtain ⟨ih1, ih2⟩ := ih 0 ⟨ts, e⟩ _ fs r s2 h
            refine ⟨by simp only [List.length_cons] at ih1 ⊢; simp at ih1; omega, ?_⟩
            intro hlt hr
            exact ih2 (by simp at hlt ⊢; omega) hr
          | succ m =>
            simp only [Nat.add_sub_cancel, Nat.succ_pos, if_true] at h
            rcases hA : pCheck "ASC" ⟨ts, e⟩ with ⟨bA, sA⟩
            rw [hA] at h
            cases bA with
            | true =>
              simp only [if_true] at h
              obtain ⟨x, hx⟩ := pCheck_true_toks _ _ _ hA
              have hlen : ts.length = sA.toks.length + 1 := by
                have := congrArg List.length hx
                simpa using this
              obtain ⟨ih1, ih2⟩ := ih _ sA _ fs r s2 h
              refine ⟨by simp only [List.length_cons]; omega, ?_⟩
              intro hlt hr
              exact ih2 (by simp at hlt; omega) hr
            | false =>
              have hsA : sA = ⟨ts, e⟩ := pCheck_false_eq _ _ _ hA
              subst hsA
              simp only [Bool.false_eq_true, if_false] at h
              rcases hD : pCheck "DESC" ⟨ts, e⟩ with ⟨bD, sD⟩
              rw [hD] at h
              cases bD with
              | true =>
                simp only [if_true] at h
                obtain ⟨x, hx⟩ := pCheck_true_toks _ _ _ hD
                have hlen : ts.length = sD.toks.length + 1 := by
                  have := congrArg List.length hx
                  simpa using this
                obtain ⟨ih1, ih2⟩ := ih _ sD _ fs r s2 h
                refine ⟨by simp only [List.length_cons]; omega, ?_⟩
                intro hlt hr
                exact ih2 (by simp at hlt; omega) hr
              | false =>
                have hsD : sD = ⟨ts, e⟩ := pCheck_false_eq _ _ _ hD
                subst hsD
                simp only [Bool.false_eq_true, if_false] at h
                obtain ⟨ih1, ih2⟩ := ih _ ⟨ts, e⟩ _ fs r s2 h
                refine ⟨by simp only [List.length_cons] at ih1 ⊢; omega, ?_⟩
                intro hlt hr
                exact ih2 (by simp at hlt ⊢; omega) hr

theorem aggSortLoop_at_fields :
    ∀ (fuel n : Nat) (s : PState) (acc fs : List (String × SortOrder))
      (r : Nat) (s2 : PState),
      aggSortLoop true fuel n s acc = .ok (fs, r, s2) →
      ∀ q ∈ fs, q ∈ acc ∨
        ∃ tok, tok ∈ s.toks ∧ startsWithAt tok = true ∧ q.1 = tok.drop 1 := by
  intro fuel
  induction fuel with
  | zero =>
    intro n s acc fs r s2 h q hq
    simp only [aggSortLoop, Except.ok.injEq, Prod.mk.injEq] at h
    obtain ⟨rfl, rfl, rfl⟩ := h
    exact Or.inl hq
  | succ fuel ih =>
    intro n s acc fs r s2 h q hq
    obtain ⟨toks, e⟩ := s
    cases toks with
    | nil =>
      simp only [aggSortLoop, pHasNext, List.isEmpty_nil, Bool.not_true,
        Bool.false_eq_true, false_and, if_false, Except.ok.injEq,
        Prod.mk.injEq] at h
      obtain ⟨rfl, rfl, rfl⟩ := h
      exact Or.inl hq
    | cons t ts =>
      cases n with
      | zero =>
        simp only [aggSortLoop, pHasNext, Nat.lt_irrefl, gt_iff_lt, and_false,
          if_false, Except.ok.injEq, Prod.mk.injEq] at h
        obtain ⟨rfl, rfl, rfl⟩ := h
        exact Or.inl hq
      | succ n' =>
        simp only [aggSortLoop, pHasNext, pPeek, ParseFieldWithAtSign_cons,
          List.isEmpty_cons, Bool.not_false, gt_iff_lt, Nat.succ_pos,
          and_true, if_true, and_self, Nat.add_sub_cancel, true_and] at h
        by_cases hat : startsWithAt t = true
        · simp only [hat, if_true] at h
          have step :
              ∀ (s' : PState) (ord : SortOrder),
                s'.toks = ts ∨ (∃ x, ts = x :: s'.toks) →
                (∀ b fs' r' s2',
                  aggSortLoop true fuel b s'
                      (acc ++ [(t.drop 1, ord)]) = .ok (fs', r', s2') →
                  fs = fs' →
                  q ∈ fs →
                  q ∈ acc ∨ ∃ tok, tok ∈ t :: ts ∧ startsWithAt tok = true ∧
                    q.1 = tok.drop 1) := by
            intro s' ord hsub b fs' r' s2' hrec hfs hqf
            subst hfs
            rcases ih b s' _ fs r' s2' hrec q hqf with hin | ⟨tok, htok, hat2, hq1⟩
            · rcases List.mem_append.mp hin with hin | hin
              · exact Or.inl hin
              · right
                refine ⟨t, List.mem_cons_self .., hat, ?_⟩
                have : q = (t.drop 1, ord) := by simpa using hin
                rw [this]
            · right
              refine ⟨tok, ?_, hat2, hq1⟩
              rcases hsub with hs' | ⟨x, hx⟩
              · exact List.mem_cons_of_mem _ (hs' ▸ htok)
              · exact List.mem_cons_of_mem _ (hx ▸ List.mem_cons_of_mem _ htok)
          cases n' with
          | zero =>
            simp only [Nat.lt_irrefl, if_false, Nat.add_sub_cancel] at h
            exact step ⟨ts, e⟩ .ASC (Or.inl rfl) 0 fs r s2 h rfl hq
          | succ m =>
            simp only [Nat.add_sub_cancel, Nat.succ_pos, if_true] at h
            rcases hA : pCheck "ASC" ⟨ts, e⟩ with ⟨bA, sA⟩
            rw [hA] at h
            cases bA with
            | true =>
              simp only [if_true] at h
              obtain ⟨x, hx⟩ := pCheck_true_toks _ _ _ hA
              exact step sA .ASC (Or.inr ⟨x, by simpa using hx⟩) _ fs r s2 h
                rfl hq
            | false =>
              have hsA : sA = ⟨ts, e⟩ := pCheck_false_eq _ _ _ hA
              subst hsA
              simp only [Bool.false_eq_true, if_false] at h
              rcases hD : pCheck "DESC" ⟨ts, e⟩ with ⟨bD, sD⟩
              rw [hD] at h
              cases bD with
              | true =>
                simp only [if_true] at h
                obtain ⟨x, hx⟩ := pCheck_true_toks _ _ _ hD
                exact step sD .DESC (Or.inr ⟨x, by simpa using hx⟩) _ fs r s2 h
                  rfl hq
              | false =>
                have hsD : sD = ⟨ts, e⟩ := pCheck_false_eq _ _ _ hD
                subst hsD
                simp only [Bool.false_eq_true, if_false] at h
                exact step ⟨ts, e⟩ .ASC (Or.inl rfl) _ fs r s2 h rfl hq
        · simp only [hat, Bool.false_eq_true, if_false, if_true] at h
          simp at h

/-- C7: the AGGREGATE SORTBY clause declaring `n` strings consumes exactly
`n` tokens on success (each field and each optional ASC/DESC direction
counting as one string): the loop ends with unconsumed budget `r` satisfying
`consumed = n - r`, a successful `ParseAggregatorSortParams` forces `r = 0`,
too few available tokens force `r ≠ 0`, and `r ≠ 0` yields the invalid-count
syntax error.  Under the legacy-reject switch every parsed field stems from
an input token starting with `@` (with the `@` stripped), and a field token
without `@` fails with a syntax error naming it. -/
theorem c7_agg_sortby_budget :
    (∀ (rl : Bool) (fuel n : Nat) (s : PState)
       (fs : List (String × SortOrder)) (r : Nat) (s2 : PState),
      aggSortLoop rl fuel n s [] = .ok (fs, r, s2) →
      s.toks.length + r = s2.toks.length + n) ∧
    (∀ (rl : Bool) (fuel n : Nat) (s : PState)
       (fs : List (String × SortOrder)) (r : Nat) (s2 : PState),
      s.toks.length < n →
      aggSortLoop rl fuel n s [] = .ok (fs, r, s2) → r ≠ 0) ∧
    (∀ (rl : Bool) (s : PState) (fs : List (String × SortOrder)) (r : Nat)
       (s2 : PState),
      aggSortLoop rl ((pNextNat s).2.toks.length + 1) (pNextNat s).1
          (pNextNat s).2 [] = .ok (fs, r, s2) →
      r ≠ 0 →
      ParseAggregatorSortParams rl s =
        .error "bad arguments for SORTBY: specified invalid number of strings") ∧
    (∀ (rl : Bool) (s : PState) (sp : SortParams) (s3 : PState),
      ParseAggregatorSortParams rl s = .ok (sp, s3) →
      ∃ fs s2, aggSortLoop rl ((pNextNat s).2.toks.length + 1) (pNextNat s).1
          (pNextNat s).2 [] = .ok (fs, 0, s2) ∧
        (pNextNat s).2.toks.length = s2.toks.length + (pNextNat s).1) ∧
    (∀ (fuel n : Nat) (s : PState) (fs : List (String × SortOrder)) (r : Nat)
       (s2 : PState),
      aggSortLoop true fuel n s [] = .ok (fs, r, s2) →
      ∀ q ∈ fs, ∃ tok, tok ∈ s.toks ∧ startsWithAt tok = true ∧
        q.1 = tok.drop 1) ∧
    (∀ (t : String) (rest : List String) (e : Bool) (fuel n : Nat),
      startsWithAt t = false → 0 < n →
      aggSortLoop true (fuel + 1) n ⟨t :: rest, e⟩ [] =
        .error ("SORTBY field name '" ++ t ++ "' must start with '@'")) := by
  refine ⟨?_, ?_, ?_, ?_, ?_, ?_⟩
  · intro rl fuel n s fs r s2 h
    exact (aggSortLoop_consumed rl fuel n s [] fs r s2 h).1
  · intro rl fuel n s fs r s2 hlt h
    have := (aggSortLoop_consumed rl fuel n s [] fs r s2 h).1
    omega
  · intro rl s fs r s2 h hr
    unfold ParseAggregatorSortParams
    rcases hn : pNextNat s with ⟨n, s1⟩
    rw [hn] at h
    simp only at h
    simp only [h]
    rw [if_pos hr]
  · intro rl s sp s3 h
    unfold ParseAggregatorSortParams at h
    rcases hn : pNextNat s with ⟨n, s1⟩
    rw [hn] at h
    simp only at h
    rcases hres : aggSortLoop rl (s1.toks.length + 1) n s1 [] with err | ⟨fs, r, s2⟩
    · rw [hres] at h
      dsimp only at h
      cases h
    · rw [hres] at h
      dsimp only at h
      by_cases hrz : r ≠ 0
      · rw [if_pos hrz] at h
        cases h
      · have hr0 : r = 0 := by omega
        subst hr0
        refine ⟨fs, s2, rfl, ?_⟩
        have hc := (aggSortLoop_consumed rl (s1.toks.length + 1) n s1 [] fs 0
          s2 hres).1
        show s1.toks.length = s2.toks.length + n
        omega
  · intro fuel n s fs r s2 h q hq
    rcases aggSortLoop_at_fields fuel n s [] fs r s2 h q hq with hin | hex
    · cases hin
    · exact hex
  · intro t rest e fuel n hat hn
    simp [aggSortLoop, pHasNext, pPeek, ParseFieldWithAtSign_cons, hat, hn]

/-- C7 witness: `SORTBY 3 @a DESC` leaves budget 1 unconsumed and errors;
`SORTBY 1 @b` parses the stripped field; a field without `@` is named in the
error. -/
theorem c7_agg_sortby_budget_witness :
    (["@a", "DESC"].length + 1 = ([] : List String).length + 3) ∧
    (1 : Nat) ≠ 0 ∧
    ParseAggregatorSortParams true ⟨["3", "@a", "DESC"], false⟩ =
      .error "bad arguments for SORTBY: specified invalid number of strings" ∧
    (∃ tok, tok ∈ ["@b"] ∧ startsWithAt tok = true ∧
      ("b", SortOrder.ASC).1 = tok.drop 1) ∧
    aggSortLoop true 1 1 ⟨["x"], false⟩ [] =
      .error "SORTBY field name 'x' must start with '@'" := by
  refine ⟨?_, ?_, ?_, ?_, ?_⟩
  · exact c7_agg_sortby_budget.1 true 3 3 ⟨["@a", "DESC"], false⟩
      [("a", .DESC)] 1 ⟨[], false⟩ (by rfl)
  · exact c7_agg_sortby_budget.2.1 true 3 3 ⟨["@a", "DESC"], false⟩
      [("a", .DESC)] 1 ⟨[], false⟩ (by decide) (by rfl)
  · exact c7_agg_sortby_budget.2.2.1 true ⟨["3", "@a", "DESC"], false⟩
      [("a", .DESC)] 1 ⟨[], false⟩ (by rfl) (by decide)
  · exact c7_agg_sortby_budget.2.2.2.2.1 1 1 ⟨["@b"], false⟩
      [("b", .ASC)] 0 ⟨[], false⟩ (by rfl) ("b", .ASC) (by decide)
  · exact c7_agg_sortby_budget.2.2.2.2.2 "x" [] false 0 1 (by decide)
      (by decide)

/-!
### C8: SYNUPDATE/SYNDUMP round trip
-/

/-- First-match lookup in a term → group-ids association list. -/
def lookupTG (m : List (String × List String)) (t : String) : List String :=
  match m.find? (fun p => p.1 == t) with
  | some p => p.2
  | none => []

theorem lookupTG_cons (k : String) (l : List String)
    (ms : List (String × List String)) (t : String) :
    lookupTG ((k, l) :: ms) t = if k == t then l else lookupTG ms t := by
  by_cases hk : (k == t) = true
  · simp [lookupTG, List.find?_cons_of_pos, hk]
  · simp only [Bool.not_eq_true] at hk
    simp [lookupTG, List.find?_cons_of_neg, hk]

theorem addTermGroup_cons_ne (k : String) (l : List String)
    (ms : List (String × List String)) (term gid : String)
    (hk : (k == term) = false) :
    addTermGroup ((k, l) :: ms) term gid =
      (k, l) :: addTermGroup ms term gid := by
  unfold addTermGroup
  rw [List.any_cons]
  simp only [hk, Bool.false_or]
  by_cases ha : ms.any (fun p => p.1 == term) = true
  · rw [if_pos ha, if_pos ha, List.map_cons, if_neg (by simp [hk])]
  · rw [if_neg ha, if_neg ha, List.cons_append]

theorem lookupTG_map_update_ne (ms : List (String × List String))
    (term gid t : String) (hne : (term == t) = false) :
    lookupTG (ms.map (fun p =>
      if p.1 == term then (p.1, if gid ∈ p.2 then p.2 else p.2 ++ [gid])
      else p)) t = lookupTG ms t := by
  induction ms with
  | nil => rfl
  | cons p ms ih =>
    obtain ⟨k, l⟩ := p
    by_cases hk : (k == term) = true
    · have hkeq : k = term := by simpa using hk
      subst hkeq
      simp only [List.map_cons, hk, if_true]
      rw [lookupTG_cons, lookupTG_cons, hne, if_neg (by simp), ih]
      simp [hne]
    · simp only [List.map_cons, hk, Bool.false_eq_true, if_false]
      rw [lookupTG_cons, lookupTG_cons, ih]

/-- Effect of `addTermGroup` on first-match lookup: the `term` entry gains
`gid` (as a set insertion), every other entry is unchanged. -/
theorem lookupTG_addTermGroup (m : List (String × List String))
    (term gid t : String) :
    lookupTG (addTermGroup m term gid) t =
      if term == t then
        (if gid ∈ lookupTG m term then lookupTG m term
         else lookupTG m term ++ [gid])
      else lookupTG m t := by
  induction m with
  | nil =>
    simp only [addTermGroup, List.any_nil, Bool.false_eq_true, if_false,
      List.nil_append]
    rw [lookupTG_cons]
    by_cases ht : (term == t) = true <;> simp [lookupTG, ht]
  | cons p ms ih =>
    obtain ⟨k, l⟩ := p
    by_cases hk : (k == term) = true
    · have hkeq : k = term := by simpa using hk
      rw [← hkeq]
      have ha : (((k, l) :: ms).any fun p => p.1 == k) = true := by
        simp [List.any_cons]
      simp only [addTermGroup, ha, if_true, List.map_cons, beq_self_eq_true,
        if_pos]
      rw [lookupTG_cons]
      by_cases ht : (k == t) = true
      · rw [if_pos ht, if_pos ht, lookupTG_cons]
        simp
      · rw [if_neg ht, if_neg ht,
          lookupTG_map_update_ne _ _ _ _ (by simpa using ht), lookupTG_cons,
          if_neg ht]
    · have hk' : (k == term) = false := by simpa using hk
      rw [addTermGroup_cons_ne _ _ _ _ _ hk', lookupTG_cons, ih,
        lookupTG_cons, lookupTG_cons]
      by_cases ht : (term == t) = true
      · have hteq : term = t := by simpa using ht
        have hkt : (k == t) = false := by
          rw [← hteq]
          exact hk'
        simp [hk', ht, hkt]
      · have ht' : (term == t) = false := by simpa using ht
        simp [hk', ht']

theorem lookupTG_addTermGroup_self (m : List (String × List String))
    (term gid : String) :
    gid ∈ lookupTG (addTermGroup m term gid) term := by
  rw [lookupTG_addTermGroup]
  simp only [beq_self_eq_true, if_true]
  by_cases h : gid ∈ lookupTG m term <;> simp [h]

theorem lookupTG_addTermGroup_mono (m : List (String × List String))
    (term gid t g : String) (h : g ∈ lookupTG m t) :
    g ∈ lookupTG (addTermGroup m term gid) t := by
  rw [lookupTG_addTermGroup]
  by_cases ht : (term == t) = true
  · have : term = t := by simpa using ht
    subst this
    simp only [beq_self_eq_true, if_true]
    by_cases hg : gid ∈ lookupTG m term <;> simp [hg, h]
  · simp only [ht, Bool.false_eq_true, if_false]
    exact h

theorem lookupTG_mem (m : List (String × List String)) (t g : String)
    (h : g ∈ lookupTG m t) : (t, lookupTG m t) ∈ m := by
  induction m with
  | nil => simp [lookupTG] at h
  | cons p ms ih =>
    obtain ⟨k, l⟩ := p
    rw [lookupTG_cons] at h ⊢
    by_cases hk : (k == t) = true
    · have hkeq : k = t := by simpa using hk
      subst hkeq
      rw [if_pos (by simp)] at h ⊢
      exact List.mem_cons_self ..
    · rw [if_neg hk] at h ⊢
      exact List.mem_cons_of_mem _ (ih h)

theorem lookupTG_foldTerms_mono (gid t g : String) :
    ∀ (terms : List String) (acc : List (String × List String)),
      g ∈ lookupTG acc t →
      g ∈ lookupTG
        (terms.foldl (fun a term => addTermGroup a term gid) acc) t := by
  intro terms
  induction terms with
  | nil =>
    intro acc h
    exact h
  | cons y ys ih =>
    intro acc h
    rw [List.foldl_cons]
    exact ih _ (lookupTG_addTermGroup_mono _ _ _ _ _ h)

theorem lookupTG_foldTerms_adds (gid t : String) :
    ∀ (terms : List String) (acc : List (String × List String)), t ∈ terms →
      gid ∈ lookupTG
        (terms.foldl (fun a term => addTermGroup a term gid) acc) t := by
  intro terms
  induction terms with
  | nil =>
    intro acc h
    cases h
  | cons y ys ih =>
    intro acc h
    rw [List.foldl_cons]
    rcases List.mem_cons.mp h with rfl | hmem
    · exact lookupTG_foldTerms_mono _ _ _ ys _
        (lookupTG_addTermGroup_self _ _ _)
    · exact ih _ hmem

theorem lookupTG_invertFold_mono (t g : String) :
    ∀ (groups : SynGroups) (acc : List (String × List String)),
      g ∈ lookupTG acc t →
      g ∈ lookupTG (groups.foldl
        (fun acc p =>
          p.2.foldl (fun acc2 term => addTermGroup acc2 term p.1) acc) acc)
        t := by
  intro groups
  induction groups with
  | nil =>
    intro acc h
    exact h
  | cons p ps ih =>
    intro acc h
    rw [List.foldl_cons]
    exact ih _ (lookupTG_foldTerms_mono _ _ _ _ _ h)

theorem invertShard_adds (groups : SynGroups) (gid : String)
    (terms : List String) (t : String) (hmem : (gid, terms) ∈ groups)
    (ht : t ∈ terms) : gid ∈ lookupTG (invertShard groups) t := by
  unfold invertShard
  suffices hgen : ∀ (gs : SynGroups) (acc : List (String × List String)),
      (gid, terms) ∈ gs →
      gid ∈ lookupTG (gs.foldl
        (fun acc p =>
          p.2.foldl (fun acc2 term => addTermGroup acc2 term p.1) acc) acc)
        t by
    exact hgen groups [] hmem
  intro gs
  induction gs with
  | nil =>
    intro acc h0
    cases h0
  | cons p ps ih =>
    obtain ⟨p1, p2⟩ := p
    intro acc h0
    rw [List.foldl_cons]
    rcases List.mem_cons.mp h0 with heq | hmem2
    · obtain ⟨h1, h2⟩ := Prod.mk.injEq .. ▸ heq
      subst h1
      subst h2
      exact lookupTG_invertFold_mono _ _ ps _
        (lookupTG_foldTerms_adds gid t terms acc ht)
    · exact ih _ hmem2

theorem lookupTG_foldGids_mono (term t g : String) :
    ∀ (gids : List String) (acc : List (String × List String)),
      g ∈ lookupTG acc t →
      g ∈ lookupTG (gids.foldl (fun a gid => addTermGroup a term gid) acc)
        t := by
  intro gids
  induction gids with
  | nil =>
    intro acc h
    exact h
  | cons y ys ih =>
    intro acc h
    rw [List.foldl_cons]
    exact ih _ (lookupTG_addTermGroup_mono _ _ _ _ _ h)

theorem lookupTG_foldGids_adds (term g : String) :
    ∀ (gids : List String) (acc : List (String × List String)), g ∈ gids →
      g ∈ lookupTG (gids.foldl (fun a gid => addTermGroup a term gid) acc)
        term := by
  intro gids
  induction gids with
  | nil =>
    intro acc h
    cases h
  | cons y ys ih =>
    intro acc h
    rw [List.foldl_cons]
    rcases List.mem_cons.mp h with rfl | hmem
    · exact lookupTG_foldGids_mono _ _ _ ys _
        (lookupTG_addTermGroup_self _ _ _)
    · exact ih _ hmem

theorem mergeShardTerms_mono (t g : String) :
    ∀ (shard : List (String × List String))
      (acc : List (String × List String)),
      g ∈ lookupTG acc t → g ∈ lookupTG (mergeShardTerms acc shard) t := by
  intro shard
  induction shard with
  | nil =>
    intro acc h
    exact h
  | cons p ps ih =>
    intro acc h
    unfold mergeShardTerms at ih ⊢
    rw [List.foldl_cons]
    exact ih _ (lookupTG_foldGids_mono _ _ _ _ _ h)

theorem mergeShardTerms_adds (t g : String) :
    ∀ (shard : List (String × List String))
      (acc : List (String × List String)),
      g ∈ lookupTG shard t → g ∈ lookupTG (mergeShardTerms acc shard) t := by
  intro shard acc h
  have hment := lookupTG_mem shard t g h
  suffices hgen : ∀ (entries : List (String × List String))
      (acc : List (String × List String)) (v : List String),
      (t, v) ∈ entries → g ∈ v →
      g ∈ lookupTG (mergeShardTerms acc entries) t by
    exact hgen shard acc _ hment h
  intro entries
  induction entries with
  | nil =>
    intro acc v h0 hg
    cases h0
  | cons p ps ih =>
    obtain ⟨p1, p2⟩ := p
    intro acc v h0 hg
    unfold mergeShardTerms at ih ⊢
    rw [List.foldl_cons]
    rcases List.mem_cons.mp h0 with heq | hmem2
    · obtain ⟨h1, h2⟩ := Prod.mk.injEq .. ▸ heq
      subst h1
      subst h2
      exact mergeShardTerms_mono t g ps _
        (lookupTG_foldGids_adds t g v acc hg)
    · exact ih _ _ hmem2 hg

theorem foldl_merge_mono (t g : String) :
    ∀ (invs : List (List (String × List String)))
      (acc : List (String × List String)),
      g ∈ lookupTG acc t →
      g ∈ lookupTG (invs.foldl mergeShardTerms acc) t := by
  intro invs
  induction invs with
  | nil =>
    intro acc h
    exact h
  | cons s ss ih =>
    intro acc h
    rw [List.foldl_cons]
    exact ih _ (mergeShardTerms_mono _ _ _ _ h)

theorem synMerged_fold_adds (t g : String) :
    ∀ (invs : List (List (String × List String)))
      (acc : List (String × List String))
      (sh : List (String × List String)),
      sh ∈ invs → g ∈ lookupTG sh t →
      g ∈ lookupTG (invs.foldl mergeShardTerms acc) t := by
  intro invs
  induction invs with
  | nil =>
    intro acc sh h _
    cases h
  | cons s ss ih =>
    intro acc sh hmem hg
    rw [List.foldl_cons]
    rcases List.mem_cons.mp hmem with rfl | hmem2
    · exact foldl_merge_mono _ _ ss _ (mergeShardTerms_adds _ _ _ _ hg)
    · exact ih _ _ hmem2 hg

theorem synSetGroup_mem (m : SynGroups) (g : String) (terms : List String) :
    (g, terms) ∈ synSetGroup m g terms := by
  unfold synSetGroup
  by_cases ha : m.any (fun p => p.1 == g) = true
  · rw [if_pos ha]
    obtain ⟨p, hp, hpg⟩ := List.any_eq_true.mp ha
    refine List.mem_map.mpr ⟨p, hp, ?_⟩
    rw [if_pos hpg]
  · rw [if_neg ha]
    exact List.mem_append_right _ (List.mem_singleton.mpr rfl)

theorem lookupTG_synDump (shards : List SynGroups) (t : String) :
    lookupTG (synDump shards) t =
      (lookupTG (synMerged shards) t).mergeSort
        (fun a b => decide (a ≤ b)) := by
  unfold synDump
  generalize synMerged shards = m
  induction m with
  | nil => simp [lookupTG, List.mergeSort_nil]
  | cons p ms ih =>
    obtain ⟨k, l⟩ := p
    rw [List.map_cons, lookupTG_cons, lookupTG_cons]
    by_cases hk : (k == t) = true
    · rw [if_pos hk, if_pos hk]
    · rw [if_neg hk, if_neg hk, ih]

theorem sortStrings_sorted (l : List String) :
    (l.mergeSort (fun a b => decide (a ≤ b))).Sorted (· ≤ ·) := by
  have htrans : ∀ a b c : String,
      decide (a ≤ b) = true → decide (b ≤ c) = true →
      decide (a ≤ c) = true := by
    intro a b c hab hbc
    simp only [decide_eq_true_eq] at hab hbc ⊢
    exact le_trans hab hbc
  have htotal : ∀ a b : String,
      (decide (a ≤ b) || decide (b ≤ a)) = true := by
    intro a b
    simp only [Bool.or_eq_true, decide_eq_true_eq]
    exact le_total a b
  have h := List.sorted_mergeSort htrans htotal l
  exact h.imp (fun hab => by simpa using hab)

/-- C8: after a successful SYNUPDATE of group `g` with terms `[t1, t2]` on a
non-empty shard set, SYNDUMP yields an entry for each of `t1` and `t2` whose
group-id list contains `g`; the dumped entry pairs the term with its (sorted)
group-id list, formed from the set-union of the per-shard inverted maps. -/
theorem c8_syn_roundtrip (shards : List SynGroups) (g t1 t2 : String)
    (hne : shards ≠ []) :
    ∀ t, t = t1 ∨ t = t2 →
      g ∈ lookupTG (synDump (synUpdate shards g [t1, t2])) t ∧
      (t, lookupTG (synDump (synUpdate shards g [t1, t2])) t) ∈
        synDump (synUpdate shards g [t1, t2]) ∧
      (lookupTG (synDump (synUpdate shards g [t1, t2])) t).Sorted
        (· ≤ ·) := by
  intro t ht
  obtain ⟨s0, rest, rfl⟩ := List.exists_cons_of_ne_nil hne
  have hmem : g ∈ lookupTG (synMerged (synUpdate (s0 :: rest) g [t1, t2])) t := by
    have hainv : g ∈ lookupTG (invertShard (synSetGroup s0 g [t1, t2])) t := by
      refine invertShard_adds _ _ _ _ (synSetGroup_mem s0 g [t1, t2]) ?_
      rcases ht with rfl | rfl
      · exact List.mem_cons_self ..
      · exact List.mem_cons_of_mem _ (List.mem_cons_self ..)
    show g ∈ lookupTG (((synUpdate (s0 :: rest) g [t1, t2]).map
      invertShard).foldl mergeShardTerms []) t
    refine synMerged_fold_adds t g _ []
      (invertShard (synSetGroup s0 g [t1, t2])) ?_ hainv
    show invertShard (synSetGroup s0 g [t1, t2]) ∈
      ((s0 :: rest).map (fun m => synSetGroup m g [t1, t2])).map invertShard
    rw [List.map_cons, List.map_cons]
    exact List.mem_cons_self ..
  have hg : g ∈ lookupTG (synDump (synUpdate (s0 :: rest) g [t1, t2])) t := by
    rw [lookupTG_synDump]
    exact List.mem_mergeSort.mpr hmem
  refine ⟨hg, lookupTG_mem _ _ _ hg, ?_⟩
  rw [lookupTG_synDump]
  exact sortStrings_sorted _

/-- C8 witness: two shards (one holding an unrelated group `g0`, one empty);
after `SYNUPDATE g1 hello hi`, the dump contains both terms mapped to a
sorted list containing `g1`. -/
theorem c8_syn_roundtrip_witness :
    "g1" ∈ lookupTG
      (synDump (synUpdate [[("g0", ["x"])], []] "g1" ["hello", "hi"]))
      "hello" ∧
    ("hello",
      lookupTG (synDump (synUpdate [[("g0", ["x"])], []] "g1"
        ["hello", "hi"])) "hello") ∈
      synDump (synUpdate [[("g0", ["x"])], []] "g1" ["hello", "hi"]) ∧
    (lookupTG (synDump (synUpdate [[("g0", ["x"])], []] "g1"
      ["hello", "hi"])) "hello").Sorted (· ≤ ·) :=
  c8_syn_roundtrip [[("g0", ["x"])], []] "g1" "hello" "hi" (by simp)
    "hello" (Or.inl rfl)

end DflySearch
